import Mathlib

/-!
# NoCol: physics core of `src/main.cpp`

A shallow embedding of the simulation in `src/main.cpp` and theorems about it.

Conventions of the embedding.

* `float` values are elements of an arbitrary linearly ordered field `F` (exact
  arithmetic).  The square root is a parameter `sqrt : F → F`; theorems that need
  it assume `IsSqrt sqrt`, which `Real.sqrt` satisfies on `ℝ`.
* `std::vector<T>` is `List T`; `balls[i]` is `balls[i]?`.
* An operation whose behaviour the C++ standard leaves undefined (division by
  zero, signed overflow, out-of-range element access) makes the embedded function
  return `none`.
* `uint32_t` arithmetic is arithmetic on `Nat` modulo `2 ^ 32`.
-/

namespace NoCol

/-! ## Data model -/

/-- Line 13: `const uint32_t max_history = 100`. -/
def max_history : Nat := 100

/-- The type `sf::Vector2f`. -/
structure Vec2 (F : Type) where
  x : F
  y : F
deriving DecidableEq

namespace Vec2

variable {F : Type} [LinearOrderedField F]

/-- Componentwise sum, `operator+` of `sf::Vector2f`. -/
def add (a b : Vec2 F) : Vec2 F := ⟨a.x + b.x, a.y + b.y⟩

/-- Componentwise difference, `operator-` of `sf::Vector2f`. -/
def sub (a b : Vec2 F) : Vec2 F := ⟨a.x - b.x, a.y - b.y⟩

/-- Scaling `c * v`, `operator*(float, Vector2f)`. -/
def smul (c : F) (v : Vec2 F) : Vec2 F := ⟨c * v.x, c * v.y⟩

/-- Division `v / c`, `operator/(Vector2f, float)`; `none` when `c` is zero. -/
def sdiv (v : Vec2 F) (c : F) : Option (Vec2 F) :=
  if c = 0 then none else some ⟨v.x / c, v.y / c⟩

end Vec2

/-- The `struct Ball` of lines 32-80. -/
structure Ball (F : Type) where
  position : Vec2 F
  velocity : Vec2 F
  r : F
  position_history : List (Vec2 F)
  current_idx : Nat
  stable : Bool
  stableCount : Int

variable {F : Type} [LinearOrderedField F]

/-- What is required of the square root: on non-negative arguments it returns the
non-negative root. -/
def IsSqrt (sqrt : F → F) : Prop :=
  ∀ x : F, 0 ≤ x → 0 ≤ sqrt x ∧ sqrt x * sqrt x = x

namespace Ball

/-- Lines 49-60: the constructor `Ball(x, y, arg_r)`.  The two `rand() % 8 - 4`
values of the initialiser list are passed as `vx` and `vy`; `stable` is not
initialised by the constructor and is passed as `uninit`. -/
def mk3 (x y arg_r : F) (vx vy : Int) (uninit : Bool) : Ball F where
  position := ⟨x, y⟩
  velocity := ⟨(vx : F), (vy : F)⟩
  r := arg_r
  position_history := List.replicate max_history ⟨x, y⟩
  current_idx := 0
  stable := uninit
  stableCount := 0

/-- Lines 62-66: `save()`. -/
def save (b : Ball F) : Ball F :=
  { b with
    position_history := b.position_history.set b.current_idx b.position
    current_idx := ((b.current_idx + 1) % 2 ^ 32) % max_history }

/-- Lines 68-79: the vertex positions of `getVA()`, in the order of the vertex
array.  Vertex `i` reads slot `(i + current_idx) % max_history`; a read outside
the history is `none`.  (The vertex colours are not part of this model.) -/
def getVA (b : Ball F) : List (Option (Vec2 F)) :=
  (List.range max_history).map fun i =>
    b.position_history[((i + b.current_idx) % 2 ^ 32) % max_history]?

/-- The body moved to `p` and then saved: one call of `save()` made while the
position of the body is `p`. -/
def saveAt (b : Ball F) (p : Vec2 F) : Ball F :=
  save { b with position := p }

/-- Successive calls of `save()` made at the positions `ps`, first to last. -/
def saveSeq (b : Ball F) (ps : List (Vec2 F)) : Ball F :=
  ps.foldl saveAt b

end Ball


/-! ## The resolver `update` -/

/-- Line 11: `int WIN_WIDTH = 1920`. -/
def WIN_WIDTH : Int := 1920

/-- Line 12: `int WIN_HEIGHT = 1080`. -/
def WIN_HEIGHT : Int := 1080

/-- Line 90: `center_position(WIN_WIDTH * 0.5f, WIN_HEIGHT * 0.5f)`. -/
def center_position : Vec2 F := ⟨(WIN_WIDTH : F) * 0.5, (WIN_HEIGHT : F) * 0.5⟩

/-- Lines 21-24: `length(v)`. -/
def length (sqrt : F → F) (v : Vec2 F) : F := sqrt (v.x * v.x + v.y * v.y)

/-- Lines 94-98, the head of the outer loop body for index `i`: the velocity of
`balls[i]` is pulled towards the centre.  `attraction_force_bug` is `0.002f`. -/
def attract (sqrt : F → F) (i : Nat) (balls : List (Ball F)) : Option (List (Ball F)) :=
  match balls[i]? with
  | none => none
  | some current_ball =>
    let to_center := Vec2.sub center_position current_ball.position
    let _dist_to_center := length sqrt to_center
    some (balls.set i
      { current_ball with
        velocity := Vec2.add current_ball.velocity (Vec2.smul 0.002 to_center) })

/-- Lines 101-117, the inner loop body for the pair `(i, k)`.  The state is the
body list and the local `stable` of `update`.  The division of line 113 is
`Vec2.sdiv`, so a zero `dist` gives `none`. -/
def collide (sqrt : F → F) (i k : Nat) (st : List (Ball F) × Bool) :
    Option (List (Ball F) × Bool) :=
  match st.1[i]?, st.1[k]? with
  | some current_ball, some collider =>
    let collide_vec := Vec2.sub current_ball.position collider.position
    let dist := sqrt (collide_vec.x * collide_vec.x + collide_vec.y * collide_vec.y)
    let minDist := current_ball.r + collider.r
    if dist < minDist then
      match Vec2.sdiv collide_vec dist with
      | none => none
      | some collide_axe =>
        let moved_ball : Ball F :=
          { current_ball with
            stable := false
            position := Vec2.add current_ball.position
              (Vec2.smul (0.5 * (minDist - dist)) collide_axe) }
        let moved_collider : Ball F :=
          { collider with
            stable := false
            position := Vec2.sub collider.position
              (Vec2.smul (0.5 * (minDist - dist)) collide_axe) }
        some ((st.1.set i moved_ball).set k moved_collider, false)
    else some st
  | _, _ => none

/-- Lines 100-118: the inner loop `for (k = i + 1; k < nBalls; k++)`. -/
def innerLoop (sqrt : F → F) (nBalls i : Nat) (st : List (Ball F) × Bool) :
    Option (List (Ball F) × Bool) :=
  (List.range' (i + 1) (nBalls - (i + 1))).foldlM (fun st k => collide sqrt i k st) st

/-- Lines 94-118: the body of the outer loop for index `i`. -/
def outerBody (sqrt : F → F) (nBalls : Nat) (st : List (Ball F) × Bool) (i : Nat) :
    Option (List (Ball F) × Bool) :=
  match attract sqrt i st.1 with
  | none => none
  | some balls => innerLoop sqrt nBalls i (balls, st.2)

/-- Lines 93-119: the outer loop `for (i = 0; i < nBalls; i++)`. -/
def outerLoop (sqrt : F → F) (nBalls : Nat) (st : List (Ball F) × Bool) :
    Option (List (Ball F) × Bool) :=
  (List.range nBalls).foldlM (outerBody sqrt nBalls) st

/-- Lines 123-126: the counter update of one body.  `stableCount` is an `int`, so
an increment past `2 ^ 31 - 1` is `none`. -/
def countStable (b : Ball F) : Option (Ball F) :=
  if b.stable then
    if b.stableCount + 1 < 2 ^ 31 then some { b with stableCount := b.stableCount + 1 }
    else none
  else some { b with stableCount := 0 }

/-- Lines 121-127: the loop over all bodies that updates `stableCount`. -/
def countLoop : List (Ball F) → Option (List (Ball F))
  | [] => some []
  | b :: rest =>
    match countStable b with
    | none => none
    | some b1 =>
      match countLoop rest with
      | none => none
      | some rest1 => some (b1 :: rest1)

/-- Lines 82-130: `update(balls, speed)`.  The result is the new body list and
the returned `stable`.  (`nBalls` is the `uint32_t` cast of the size; a list of
`2 ^ 32` bodies or more is out of reach of the program, and the cast is not
modelled.  The parameter `speed` is unused in the source.) -/
def update (sqrt : F → F) (balls : List (Ball F)) (_speed : F) :
    Option (List (Ball F) × Bool) :=
  match outerLoop sqrt balls.length (balls, true) with
  | none => none
  | some st =>
    match countLoop st.1 with
    | none => none
    | some counted => some (counted, st.2)

/-! ### The order in which `update` examines the pairs -/

/-- One step of the two nested loops of `update`: the head of the outer body for
`i`, or the inner body for the pair `(i, k)`. -/
inductive Op where
  | attract (i : Nat)
  | pair (i k : Nat)
deriving DecidableEq

/-- The effect of one step on the loop state. -/
def step (sqrt : F → F) (st : List (Ball F) × Bool) : Op → Option (List (Ball F) × Bool)
  | Op.attract i =>
    match attract sqrt i st.1 with
    | none => none
    | some balls => some (balls, st.2)
  | Op.pair i k => collide sqrt i k st

/-- The steps of the outer body for `i`, in program order. -/
def rowOps (nBalls i : Nat) : List Op :=
  Op.attract i :: (List.range' (i + 1) (nBalls - (i + 1))).map (Op.pair i)

/-- The steps of the two nested loops for `nBalls` bodies, in program order. -/
def schedule (nBalls : Nat) : List Op :=
  ((List.range nBalls).map (rowOps nBalls)).flatten

/-- Running a list of steps from a loop state. -/
def runOps (sqrt : F → F) (ops : List Op) (st : List (Ball F) × Bool) :
    Option (List (Ball F) × Bool) :=
  ops.foldlM (step sqrt) st

/-- The loop state of `update balls` at the moment the pair `(i, k)` is examined:
the steps of the schedule before `Op.pair i k` have run. -/
def stateBefore (sqrt : F → F) (balls : List (Ball F)) (i k : Nat) :
    Option (List (Ball F) × Bool) :=
  runOps sqrt ((schedule balls.length).takeWhile (fun op => op ≠ Op.pair i k)) (balls, true)

/-- The distance of the centres of bodies `i` and `k`, as line 103 computes it;
`none` when one of the indices is out of range. -/
def distOf (sqrt : F → F) (balls : List (Ball F)) (i k : Nat) : Option F :=
  match balls[i]?, balls[k]? with
  | some a, some b => some (length sqrt (Vec2.sub a.position b.position))
  | _, _ => none

/-- The sum of the radii of bodies `i` and `k` (`minDist` of line 105). -/
def minDistOf (balls : List (Ball F)) (i k : Nat) : Option F :=
  match balls[i]?, balls[k]? with
  | some a, some b => some (a.r + b.r)
  | _, _ => none

/-- The test of line 107 on the pair `(i, k)` of a body list. -/
def overlapping (sqrt : F → F) (balls : List (Ball F)) (i k : Nat) : Bool :=
  match distOf sqrt balls i k, minDistOf balls i k with
  | some dist, some minDist => decide (dist < minDist)
  | _, _ => false

/-- The pair that the step `op` finds overlapping when it starts in the state `st`:
`(i, k)` for `Op.pair i k` when the test of line 107 succeeds, nothing otherwise. -/
def foundBy (sqrt : F → F) (st : List (Ball F) × Bool) : Op → List (Nat × Nat)
  | Op.pair i k => if overlapping sqrt st.1 i k then [(i, k)] else []
  | Op.attract _ => []

/-- The pairs found overlapping while the steps `ops` run from `st`, in the order
they are found. -/
def overlapLog (sqrt : F → F) : List Op → List (Ball F) × Bool → List (Nat × Nat)
  | [], _ => []
  | op :: ops, st =>
    foundBy sqrt st op ++
    (match step sqrt st op with
      | none => []
      | some st1 => overlapLog sqrt ops st1)

/-- The pairs that `update balls` finds overlapping. -/
def overlapsFound (sqrt : F → F) (balls : List (Ball F)) : List (Nat × Nat) :=
  overlapLog sqrt (schedule balls.length) (balls, true)

/-- Body `j` is one of the two bodies of a pair of the list `ps`. -/
def touches (ps : List (Nat × Nat)) (j : Nat) : Bool :=
  ps.any fun p => decide (p.1 = j) || decide (p.2 = j)

/-- Body `j` belongs to a pair that `update balls` finds overlapping. -/
def involved (sqrt : F → F) (balls : List (Ball F)) (j : Nat) : Bool :=
  touches (overlapsFound sqrt balls) j

/-! ## Integration, hit-testing and the frame loop -/

/-- Line 136 for the bodies of a list, first to last; the quotient
`dt / speedDownFactor` is evaluated for every body and is `none` for a zero
divisor.  `dt` is `0.016f`. -/
def moveLoop (speedDownFactor : F) : List (Ball F) → Option (List (Ball F))
  | [] => some []
  | currentBall :: rest =>
    if speedDownFactor = 0 then none
    else
      match moveLoop speedDownFactor rest with
      | none => none
      | some rest1 =>
        some ({ currentBall with
                position := Vec2.add currentBall.position
                  (Vec2.smul (0.016 / speedDownFactor) currentBall.velocity) } :: rest1)

/-- Lines 132-140: `updatePos(balls, speedDownFactor, speedDownCounter)`; the
result is the new body list and the new value of the counter. -/
def updatePos (balls : List (Ball F)) (speedDownFactor speedDownCounter : F) :
    Option (List (Ball F) × F) :=
  match moveLoop speedDownFactor balls with
  | none => none
  | some moved => some (moved, speedDownCounter - 1)

/-- Lines 144-150: the loop of `getBallAt` over the bodies from index `idx` on. -/
def getBallAtFrom (sqrt : F → F) (position : Vec2 F) : List (Ball F) → Nat → Option Nat
  | [], _ => none
  | ball :: rest, idx =>
    let v := Vec2.sub position ball.position
    let dist := sqrt (v.x * v.x + v.y * v.y)
    if dist < ball.r then some idx else getBallAtFrom sqrt position rest (idx + 1)

/-- Lines 142-153: `getBallAt(position, balls)`.  The returned pointer is the index
of the body in `balls`; `nullptr` is `none`. -/
def getBallAt (sqrt : F → F) (position : Vec2 F) (balls : List (Ball F)) : Option Nat :=
  getBallAtFrom sqrt position balls 0

/-- The point `p` lies inside body `j`: the test of line 147. -/
def containsPoint (sqrt : F → F) (p : Vec2 F) (balls : List (Ball F)) (j : Nat) : Prop :=
  ∃ b, balls[j]? = some b ∧ length sqrt (Vec2.sub p b.position) < b.r

/-- The distance from `p` to the centre of body `j`, `none` when out of range. -/
def centreDist (sqrt : F → F) (p : Vec2 F) (balls : List (Ball F)) (j : Nat) : Option F :=
  (balls[j]?).map fun b => length sqrt (Vec2.sub p b.position)

/-- The variables of `main` that the frame loop of lines 230-304 reads and writes
for the simulation (lines 166-169, 187, 226, 228).  The variables that only drive
the drawing are left out. -/
structure Sim (F : Type) where
  speedDownFactor : F
  speedDownCounter : F
  waitingSpeedFactor : F
  speedDownFactorGoal : F
  ok_count : Nat
  balls : List (Ball F)
  focus : Option Nat

/-- What the event collaborator delivers during one frame: whether the Space key
was released, and the world position of a click if there was one. -/
structure Input (F : Type) where
  space : Bool
  clic : Option (Vec2 F)

/-- Lines 217-219: the callback of the Space key. -/
def spaceKey (s : Sim F) : Sim F :=
  { s with speedDownFactorGoal := if s.speedDownFactor = 1 then 10.0 else 1.0 }

/-- Lines 236-238: the waiting factor moves to the goal. -/
def approachGoal (s : Sim F) : Sim F :=
  if s.waitingSpeedFactor ≠ s.speedDownFactorGoal then
    { s with
      waitingSpeedFactor :=
        s.waitingSpeedFactor + (s.speedDownFactorGoal - s.waitingSpeedFactor) }
  else s

/-- Lines 251-254: every body is marked stable and saves its position. -/
def prepared (balls : List (Ball F)) : List (Ball F) :=
  balls.map fun ball => Ball.save { ball with stable := true }

/-- Lines 251-268: the body of `if (!speedDownCounter)`, one physics tick. -/
def tick (sqrt : F → F) (s : Sim F) : Option (Sim F) :=
  match update sqrt (prepared s.balls) 1 with
  | none => none
  | some (balls, stable) =>
    let ok1 := if !stable && decide (s.ok_count < 200) then 0 else s.ok_count
    let ok2 := if stable then (ok1 + 1) % 2 ^ 32 else ok1
    let factor := if s.waitingSpeedFactor ≠ 0 then s.waitingSpeedFactor else s.speedDownFactor
    some { s with
           balls := balls
           ok_count := ok2
           speedDownFactor := factor
           speedDownCounter := factor }

/-- A physics tick fires on the frame that starts in state `s`: the test
`!speedDownCounter` of line 250. -/
def ticks (s : Sim F) : Prop := s.speedDownCounter = 0

instance (s : Sim F) : Decidable (ticks s) := by
  unfold ticks
  infer_instance

/-- Lines 233-247: the events of the frame are handled (line 233 runs the key
callbacks), the waiting factor moves to the goal, and a click selects the body
under the mouse. -/
def afterEvents (sqrt : F → F) (inp : Input F) (s : Sim F) : Sim F :=
  let s1 := if inp.space then spaceKey s else s
  let s2 := approachGoal s1
  match inp.clic with
  | some p => { s2 with focus := getBallAt sqrt p s2.balls }
  | none => s2

/-- Lines 233-269: one frame up to, but not including, the call of `updatePos`. -/
def beforeUpdatePos (sqrt : F → F) (inp : Input F) (s : Sim F) : Option (Sim F) :=
  if (afterEvents sqrt inp s).speedDownCounter = 0 then tick sqrt (afterEvents sqrt inp s)
  else some (afterEvents sqrt inp s)

/-- Lines 231-271: the simulation part of one iteration of the frame loop. -/
def frame (sqrt : F → F) (inp : Input F) (s : Sim F) : Option (Sim F) :=
  match beforeUpdatePos sqrt inp s with
  | none => none
  | some s4 =>
    match updatePos s4.balls s4.speedDownFactor s4.speedDownCounter with
    | none => none
    | some (balls, counter) => some { s4 with balls := balls, speedDownCounter := counter }

/-- Successive frames with the inputs `inps`, first to last. -/
def runFrames (sqrt : F → F) (inps : List (Input F)) (s : Sim F) : Option (Sim F) :=
  inps.foldlM (fun s inp => frame sqrt inp s) s

/-! ## Construction of the population -/

/-- The value `z` as an `int`; `none` when it does not fit in 32 bits. -/
def int32 (z : Int) : Option Int :=
  if -2 ^ 31 ≤ z ∧ z < 2 ^ 31 then some z else none

/-- The remainder `a % b` of C++ on `int`: truncated, `none` for a zero divisor. -/
def cmod (a b : Int) : Option Int :=
  if b = 0 then none else some (Int.tmod a b)

/-- Lines 189-201: one iteration of the spawn loop.  `rand n` is the result of the
`n`-th call of `rand()`, and `call` the number of calls made before the iteration;
`cos` and `sin` are the library functions.  (The language does not fix the order
of the second and third call; no theorem depends on it.) -/
def spawnBall (cos sin : F → F) (rand : Nat → Nat) (call : Nat) (maxSize minSize : Int)
    (uninit : Bool) : Option (Ball F) :=
  let angle : F := ((Int.tmod (rand call) 10000 : Int) : F) / 10000.0 * 2.0 * 3.141592653
  let radius : F := 450.0
  let start_x := radius * cos angle
  let start_y := radius * sin angle
  let speed : F :=
    (if Int.tmod (rand (call + 1)) 2 ≠ 0 then 1.0 else -1.0) *
      ((Int.tmod (rand (call + 2)) 20 + 150 : Int) : F)
  match int32 (maxSize - minSize) with
  | none => none
  | some range =>
    match cmod (rand (call + 3)) range with
    | none => none
    | some m =>
      match int32 (m + minSize) with
      | none => none
      | some size =>
        let b : Ball F :=
          Ball.mk3 (start_x + (WIN_WIDTH : F) * 0.5) (start_y + (WIN_HEIGHT : F) * 0.5) (size : F)
            (Int.tmod (rand (call + 4)) 8 - 4) (Int.tmod (rand (call + 5)) 8 - 4) uninit
        some { b with velocity := ⟨-(sin angle) * speed, cos angle * speed⟩ }

/-- Lines 188-202: `count` iterations of the spawn loop; every iteration makes six
calls of `rand()`. -/
def spawnLoop (cos sin : F → F) (rand : Nat → Nat) (maxSize minSize : Int) (uninit : Bool) :
    Nat → Nat → Option (List (Ball F))
  | 0, _ => some []
  | count + 1, call =>
    match spawnBall cos sin rand call maxSize minSize uninit with
    | none => none
    | some b =>
      match spawnLoop cos sin rand maxSize minSize uninit count (call + 6) with
      | none => none
      | some rest => some (b :: rest)

/-- Lines 175-202: the population built from the three values of the configuration.
The loop `for (int i(0); i < nBalls; i++)` runs `nBalls` times for a positive
`nBalls` and not at all otherwise. -/
def spawn (cos sin : F → F) (rand : Nat → Nat) (nBalls maxSize minSize : Int) (uninit : Bool) :
    Option (List (Ball F)) :=
  spawnLoop cos sin rand maxSize minSize uninit nBalls.toNat 0

/-- The positions of the bodies of a list, in order. -/
def positions (balls : List (Ball F)) : List (Vec2 F) := balls.map fun b => b.position

/-- The `stable` flags of the bodies of a list, in order. -/
def flags (balls : List (Ball F)) : List Bool := balls.map fun b => b.stable

/-- The variables of `main` when the frame loop is entered (lines 166-169, 226, 228)
for the population `balls`. -/
def startSim (balls : List (Ball F)) : Sim F where
  speedDownFactor := 1
  speedDownCounter := 1
  waitingSpeedFactor := 1
  speedDownFactorGoal := 1
  ok_count := 0
  balls := balls
  focus := none

/-- A state in which a tick is due (the countdown is zero) while the waiting
factor and the goal are 10 and the settled counter is `ok`. -/
def dueSim (balls : List (Ball F)) (ok : Nat) : Sim F :=
  { startSim balls with
    speedDownCounter := 0
    waitingSpeedFactor := 10
    speedDownFactorGoal := 10
    ok_count := ok }

/-- A state in which a tick is due at normal speed (divisor, waiting factor and
goal are 1, the countdown is zero) and the settled counter is `ok`. -/
def dueNow (balls : List (Ball F)) (ok : Nat) : Sim F :=
  { startSim balls with
    speedDownCounter := 0
    ok_count := ok }

/-- A frame without events. -/
def quiet : Input F := ⟨false, none⟩

/-! ## Concrete populations -/

/-- A body at rest at `(x, y)` with radius `r`, as the constructor of lines 49-60
builds it, marked stable. -/
def ballAt (x y r : F) : Ball F := Ball.mk3 x y r 0 0 true

/-- Two bodies of radius 5 whose centres are 6 apart. -/
def twoBalls : List (Ball F) := [ballAt 0 0 5, ballAt 6 0 5]

/-- Two bodies of radius 5 with the same centre. -/
def coincidentBalls : List (Ball F) := [ballAt 3 4 5, ballAt 3 4 5]

/-- Three bodies of radius 2 on a line: the first two overlap, the third lies on
the other side of the first, at distance 4.5 from it. -/
def threeBalls : List (Ball F) := [ballAt 0 0 2, ballAt 2 0 2, ballAt (-4.5) 0 2]

/-- Two overlapping bodies of radius 5: the centre of the second lies inside the
first. -/
def overlapPair : List (Ball F) := [ballAt 0 0 5, ballAt 3 0 5]

/-- A body as `ballAt` builds it that has been stable for 7 ticks. -/
def agedAt (x y r : F) : Ball F := { ballAt x y r with stableCount := 7 }

/-- Three bodies of radius 5 that have been stable for 7 ticks: the first two are
6 apart, the third is far from both. -/
def agedBalls : List (Ball F) := [agedAt 0 0 5, agedAt 6 0 5, agedAt 106 0 5]

/-- The state that a tick at normal speed leaves from `twoBalls`, with the settled
counter at `ok`: the centres are at `-2` and `8`, both bodies are unstable. -/
def afterFirst (ok : Nat) : Sim F :=
  ⟨1, 1, 1, 1, ok,
    [⟨⟨-2, 0⟩, ⟨48 / 25, 27 / 25⟩, 5, (List.replicate max_history ⟨0, 0⟩).set 0 ⟨0, 0⟩, 1,
        false, 0⟩,
      ⟨⟨8, 0⟩, ⟨238 / 125, 27 / 25⟩, 5, (List.replicate max_history ⟨6, 0⟩).set 0 ⟨6, 0⟩, 1,
        false, 0⟩], none⟩

/-- The state one frame after `afterFirst ok`: the bodies have moved with their
velocities, the first faster than the second, and the countdown is zero. -/
def afterSecond (ok : Nat) : Sim F :=
  ⟨1, 0, 1, 1, ok,
    [⟨⟨-6154 / 3125, 54 / 3125⟩, ⟨48 / 25, 27 / 25⟩, 5,
        (List.replicate max_history ⟨0, 0⟩).set 0 ⟨0, 0⟩, 1, false, 0⟩,
      ⟨⟨125476 / 15625, 54 / 3125⟩, ⟨238 / 125, 27 / 25⟩, 5,
        (List.replicate max_history ⟨6, 0⟩).set 0 ⟨6, 0⟩, 1, false, 0⟩], none⟩

/-- A single body. -/
def oneBall : List (Ball F) := [ballAt 0 0 5]

/-- The positions `(0, 0), (1, 0), ..., (149, 0)`. -/
def ramp : List (Vec2 F) := (List.range 150).map fun (i : Nat) => ⟨(i : F), 0⟩

/-! # Theorems -/

set_option linter.unusedSectionVars false

/-! ## Trail buffer -/

namespace Ball

theorem save_length (b : Ball F) : (save b).position_history.length = b.position_history.length := by
  simp [save]

theorem saveAt_length (b : Ball F) (p : Vec2 F) :
    (saveAt b p).position_history.length = b.position_history.length := by
  simp [saveAt, save]

theorem saveAt_idx_lt (b : Ball F) (p : Vec2 F) : (saveAt b p).current_idx < max_history := by
  simp only [saveAt, save, max_history]
  omega

/-- One `save()` drops the oldest entry of the reading order and appends the saved
position. -/
theorem getVA_saveAt (b : Ball F) (p : Vec2 F) (hlen : b.position_history.length = max_history)
    (hidx : b.current_idx < max_history) :
    getVA (saveAt b p) = (getVA b).tail ++ [some p] := by
  simp only [max_history] at hlen hidx
  apply List.ext_getElem?
  intro n
  by_cases hn : n < 100
  · by_cases hn99 : n = 99
    · subst hn99
      have h1 : (getVA (saveAt b p))[99]? = some (some p) := by
        simp only [getVA, saveAt, save, max_history, List.getElem?_map,
          List.getElem?_range (show 99 < 100 by norm_num), Option.map_some', List.getElem?_set]
        have : (99 + (b.current_idx + 1) % 2 ^ 32 % 100) % 2 ^ 32 % 100 = b.current_idx := by omega
        rw [this]
        simp [hlen, hidx]
      have h2 : ((getVA b).tail ++ [some p])[99]? = some (some p) := by
        have hl : (getVA b).tail.length = 99 := by simp [getVA, max_history]
        rw [List.getElem?_append_right (by omega)]
        simp [hl]
      rw [h1, h2]
    · have hn' : n < 99 := by omega
      have h1 : (getVA (saveAt b p))[n]? =
          some b.position_history[(n + 1 + b.current_idx) % 100]? := by
        simp only [getVA, saveAt, save, max_history, List.getElem?_map,
          List.getElem?_range hn, Option.map_some', List.getElem?_set]
        have e : (n + (b.current_idx + 1) % 2 ^ 32 % 100) % 2 ^ 32 % 100
            = (n + 1 + b.current_idx) % 100 := by omega
        rw [e]
        have : b.current_idx ≠ (n + 1 + b.current_idx) % 100 := by omega
        simp [this]
      have h2 : ((getVA b).tail ++ [some p])[n]? =
          some b.position_history[(n + 1 + b.current_idx) % 100]? := by
        have hl : (getVA b).tail.length = 99 := by simp [getVA, max_history]
        rw [List.getElem?_append_left (by omega)]
        rw [List.getElem?_tail]
        simp only [getVA, max_history, List.getElem?_map,
          List.getElem?_range (show n + 1 < 100 by omega), Option.map_some']
        have e : (n + 1 + b.current_idx) % 2 ^ 32 % 100 = (n + 1 + b.current_idx) % 100 := by
          omega
        rw [e]
      rw [h1, h2]
  · have l1 : (getVA (saveAt b p)).length = 100 := by simp [getVA, max_history]
    have l2 : ((getVA b).tail ++ [some p]).length = 100 := by simp [getVA, max_history]
    rw [List.getElem?_eq_none (by omega), List.getElem?_eq_none (by omega)]

/-- Invariant of a run of `save()` calls: the history keeps its length, the cursor
stays below `max_history`, and the reading order is the last `max_history` entries
of the initial reading order followed by the saved positions. -/
theorem saveSeq_inv (ps : List (Vec2 F)) (b : Ball F)
    (hlen : b.position_history.length = max_history) (hidx : b.current_idx < max_history) :
    (saveSeq b ps).position_history.length = max_history ∧
    (saveSeq b ps).current_idx < max_history ∧
    getVA (saveSeq b ps) = (getVA b ++ ps.map some).drop ps.length := by
  induction ps generalizing b with
  | nil => simp [saveSeq, hlen, hidx]
  | cons p ps ih =>
    have hl := (saveAt_length b p).trans hlen
    have hi := saveAt_idx_lt b p
    obtain ⟨h1, h2, h3⟩ := ih (saveAt b p) hl hi
    have e : saveSeq b (p :: ps) = saveSeq (saveAt b p) ps := rfl
    rw [e]
    refine ⟨h1, h2, ?_⟩
    rw [h3, getVA_saveAt b p hlen hidx]
    have hne : getVA b ≠ [] := by
      intro h
      have : (getVA b).length = 100 := by simp [getVA, max_history]
      rw [h] at this
      simp at this
    obtain ⟨a, t, hat⟩ := List.exists_cons_of_ne_nil hne
    rw [hat]
    simp

end Ball

/-- C1. After `n ≥ max_history` calls of `save()` at the positions `ps`, starting
from a body whose history has `max_history` slots and whose cursor is `0`, the
history still has exactly `max_history` entries, the cursor is below `max_history`,
and `getVA` reads the last `max_history` saved positions in the order they were
saved. -/
theorem trail_keeps_last_positions (b : Ball F) (ps : List (Vec2 F))
    (hlen : b.position_history.length = max_history) (hidx : b.current_idx = 0)
    (hn : max_history ≤ ps.length) :
    (Ball.saveSeq b ps).position_history.length = max_history ∧
    (Ball.saveSeq b ps).current_idx < max_history ∧
    Ball.getVA (Ball.saveSeq b ps) = (ps.drop (ps.length - max_history)).map some := by
  obtain ⟨h1, h2, h3⟩ := Ball.saveSeq_inv ps b hlen (by rw [hidx]; decide)
  refine ⟨h1, h2, ?_⟩
  rw [h3]
  have hl : (Ball.getVA b).length = max_history := by simp [Ball.getVA]
  have e : ps.length = (Ball.getVA b).length + (ps.length - max_history) := by
    rw [hl]; omega
  conv_lhs => rw [e]
  rw [List.drop_append, List.map_drop]


/-! ## Resolution of one pair -/

theorem IsSqrt.sqrt_mul_self {sqrt : F → F} (hs : IsSqrt sqrt) {m : F} (hm : 0 ≤ m) :
    sqrt (m * m) = m := by
  obtain ⟨h0, h1⟩ := hs (m * m) (mul_self_nonneg m)
  exact (mul_self_inj h0 hm).1 h1

theorem normSq_nonneg (v : Vec2 F) : 0 ≤ v.x * v.x + v.y * v.y :=
  add_nonneg (mul_self_nonneg _) (mul_self_nonneg _)

theorem real_isSqrt : IsSqrt Real.sqrt := fun x hx =>
  ⟨Real.sqrt_nonneg x, Real.mul_self_sqrt hx⟩

theorem sep_sq (ax ay bx by' d m : F) (hd0 : d ≠ 0)
    (hd2 : d * d = (ax - bx) * (ax - bx) + (ay - by') * (ay - by')) :
    (ax + 0.5 * (m - d) * ((ax - bx) / d) - (bx - 0.5 * (m - d) * ((ax - bx) / d))) *
      (ax + 0.5 * (m - d) * ((ax - bx) / d) - (bx - 0.5 * (m - d) * ((ax - bx) / d))) +
    (ay + 0.5 * (m - d) * ((ay - by') / d) - (by' - 0.5 * (m - d) * ((ay - by') / d))) *
      (ay + 0.5 * (m - d) * ((ay - by') / d) - (by' - 0.5 * (m - d) * ((ay - by') / d))) =
    m * m := by
  have hx : ax + 0.5 * (m - d) * ((ax - bx) / d) - (bx - 0.5 * (m - d) * ((ax - bx) / d)) =
      (ax - bx) * (m / d) := by
    field_simp
    ring
  have hy : ay + 0.5 * (m - d) * ((ay - by') / d) - (by' - 0.5 * (m - d) * ((ay - by') / d)) =
      (ay - by') * (m / d) := by
    field_simp
    ring
  rw [hx, hy]
  calc (ax - bx) * (m / d) * ((ax - bx) * (m / d)) + (ay - by') * (m / d) * ((ay - by') * (m / d))
      = ((ax - bx) * (ax - bx) + (ay - by') * (ay - by')) * ((m / d) * (m / d)) := by ring
    _ = d * d * ((m / d) * (m / d)) := by rw [hd2]
    _ = m * m := by
      field_simp

theorem disp_sq (x y d c : F) (hd0 : d ≠ 0) (hd2 : d * d = x * x + y * y) :
    c * (x / d) * (c * (x / d)) + c * (y / d) * (c * (y / d)) = c * c := by
  calc c * (x / d) * (c * (x / d)) + c * (y / d) * (c * (y / d))
      = (x * x + y * y) * ((c / d) * (c / d)) := by ring
    _ = d * d * ((c / d) * (c / d)) := by rw [hd2]
    _ = c * c := by
      field_simp

/-- C2. When the pair `(i, k)`, `i < k`, is examined in a state where
`0 < dist < r_i + r_k`, the inner body succeeds and returns `stable = false`;
afterwards the centres are exactly `r_i + r_k` apart, the displacement of body `i`
is the negative of the displacement of body `k`, both displacements have length
`0.5 * (r_i + r_k - dist)`, and both bodies are marked unstable. -/
theorem resolve_overlapping_pair (sqrt : F → F) (hs : IsSqrt sqrt)
    (st : List (Ball F) × Bool) (i k : Nat) (a b : Ball F) (hik : i < k)
    (ha : st.1[i]? = some a) (hb : st.1[k]? = some b)
    (hpos : 0 < length sqrt (Vec2.sub a.position b.position))
    (hlt : length sqrt (Vec2.sub a.position b.position) < a.r + b.r) :
    ∃ bs a1 b1, collide sqrt i k st = some (bs, false) ∧
      bs[i]? = some a1 ∧ bs[k]? = some b1 ∧
      length sqrt (Vec2.sub a1.position b1.position) = a.r + b.r ∧
      Vec2.sub a1.position a.position = Vec2.smul (-1) (Vec2.sub b1.position b.position) ∧
      length sqrt (Vec2.sub a1.position a.position) =
        0.5 * (a.r + b.r - length sqrt (Vec2.sub a.position b.position)) ∧
      length sqrt (Vec2.sub b1.position b.position) =
        0.5 * (a.r + b.r - length sqrt (Vec2.sub a.position b.position)) ∧
      a1.stable = false ∧ b1.stable = false := by
  have hi : i < st.1.length := by
    by_contra h
    rw [List.getElem?_eq_none (by omega)] at ha
    exact Option.noConfusion ha
  have hk : k < st.1.length := by
    by_contra h
    rw [List.getElem?_eq_none (by omega)] at hb
    exact Option.noConfusion hb
  have hne : i ≠ k := by omega
  set d := length sqrt (Vec2.sub a.position b.position) with hd
  have hd2 : d * d = (a.position.x - b.position.x) * (a.position.x - b.position.x) +
      (a.position.y - b.position.y) * (a.position.y - b.position.y) :=
    (hs _ (normSq_nonneg (Vec2.sub a.position b.position))).2
  have hd0 : d ≠ 0 := ne_of_gt hpos
  have hc : (0 : F) ≤ 0.5 * (a.r + b.r - d) := by
    have : 0 < a.r + b.r - d := by linarith
    norm_num
    linarith
  have hm : 0 ≤ a.r + b.r := by linarith
  have hsd : Vec2.sdiv (Vec2.sub a.position b.position) d =
      some ⟨(a.position.x - b.position.x) / d, (a.position.y - b.position.y) / d⟩ := by
    simp [Vec2.sdiv, Vec2.sub, hd0]
  obtain ⟨a1, ha1⟩ : ∃ a1 : Ball F, a1 = { a with
      stable := false
      position := Vec2.add a.position (Vec2.smul (0.5 * (a.r + b.r - d))
        ⟨(a.position.x - b.position.x) / d, (a.position.y - b.position.y) / d⟩) } := ⟨_, rfl⟩
  obtain ⟨b1, hb1⟩ : ∃ b1 : Ball F, b1 = { b with
      stable := false
      position := Vec2.sub b.position (Vec2.smul (0.5 * (a.r + b.r - d))
        ⟨(a.position.x - b.position.x) / d, (a.position.y - b.position.y) / d⟩) } := ⟨_, rfl⟩
  have hcol : collide sqrt i k st = some ((st.1.set i a1).set k b1, false) := by
    have hlt2 : sqrt ((Vec2.sub a.position b.position).x * (Vec2.sub a.position b.position).x +
        (Vec2.sub a.position b.position).y * (Vec2.sub a.position b.position).y) < a.r + b.r := hlt
    simp only [collide, ha, hb]
    rw [if_pos hlt2]
    have hsd2 := hsd
    simp only [hd, length] at hsd2
    rw [hsd2, ha1, hb1]
    rfl
  refine ⟨_, a1, b1, hcol, ?_, ?_, ?_, ?_, ?_, ?_, ?_, ?_⟩
  · simp [List.getElem?_set, hne.symm, hi]
  · simp [List.getElem?_set, hk]
  · show sqrt _ = _
    simp only [ha1, hb1, Vec2.sub, Vec2.add, Vec2.smul]
    rw [sep_sq _ _ _ _ d (a.r + b.r) hd0 hd2]
    exact hs.sqrt_mul_self hm
  · simp only [ha1, hb1, Vec2.sub, Vec2.add, Vec2.smul]
    congr 1 <;> ring
  · show sqrt _ = _
    simp only [ha1, Vec2.sub, Vec2.add, Vec2.smul, add_sub_cancel_left]
    rw [disp_sq _ _ d _ hd0 hd2]
    exact hs.sqrt_mul_self hc
  · show sqrt _ = _
    simp only [hb1, Vec2.sub, Vec2.add, Vec2.smul, sub_sub_cancel_left, neg_mul_neg]
    rw [disp_sq _ _ d _ hd0 hd2]
    exact hs.sqrt_mul_self hc
  · rw [ha1]
  · rw [hb1]

theorem real_sqrt_of_sq {x d : ℝ} (hd : 0 ≤ d) (h : x = d * d) : Real.sqrt x = d := by
  rw [h]
  exact Real.sqrt_mul_self hd

theorem schedule_two : schedule 2 = [Op.attract 0, Op.pair 0 1, Op.attract 1] := by
  decide

theorem schedule_three : schedule 3 =
    [Op.attract 0, Op.pair 0 1, Op.pair 0 2, Op.attract 1, Op.pair 1 2, Op.attract 2] := by
  decide

/-- Witness of C2 on the reals: the two bodies of radius 5 at distance 6.  The pair
satisfies the hypotheses, the resolution of the pair puts the centres `5 + 5` apart
with both bodies unstable, and one whole `update` ends with the centres at `-2` and
`8` on the axis, which is distance 10, with `stable = false` on both bodies and as
the returned value. -/
theorem resolve_overlapping_pair_witness :
    ((0 : ℝ) < length Real.sqrt (Vec2.sub (ballAt 0 0 5).position (ballAt 6 0 5).position) ∧
      length Real.sqrt (Vec2.sub (ballAt (0 : ℝ) 0 5).position (ballAt 6 0 5).position) < 5 + 5 ∧
      ∃ bs a1 b1, collide Real.sqrt 0 1 (twoBalls, true) = some (bs, false) ∧
        bs[0]? = some a1 ∧ bs[1]? = some b1 ∧
        length Real.sqrt (Vec2.sub a1.position b1.position) = 5 + 5 ∧
        a1.stable = false ∧ b1.stable = false) ∧
    (update Real.sqrt twoBalls 1).map (fun res => (positions res.1, flags res.1, res.2)) =
      some ([⟨-2, 0⟩, ⟨8, 0⟩], [false, false], false) ∧
    length Real.sqrt (Vec2.sub (⟨-2, 0⟩ : Vec2 ℝ) ⟨8, 0⟩) = 10 := by
  have h6 : length Real.sqrt (Vec2.sub (ballAt (0 : ℝ) 0 5).position (ballAt 6 0 5).position) = 6 := by
    simp only [length, Vec2.sub, ballAt, Ball.mk3]
    exact real_sqrt_of_sq (by norm_num) (by norm_num)
  have h36 : Real.sqrt 36 = 6 := real_sqrt_of_sq (by norm_num) (by norm_num)
  have hpos : (0 : ℝ) < length Real.sqrt (Vec2.sub (ballAt 0 0 5).position (ballAt 6 0 5).position) := by
    rw [h6]; norm_num
  have hlt : length Real.sqrt (Vec2.sub (ballAt (0 : ℝ) 0 5).position (ballAt 6 0 5).position) <
      (ballAt (0 : ℝ) 0 5).r + (ballAt (6 : ℝ) 0 5).r := by
    rw [h6]; simp only [ballAt, Ball.mk3]; norm_num
  refine ⟨⟨hpos, by rw [h6]; norm_num, ?_⟩, ?_, ?_⟩
  · obtain ⟨bs, a1, b1, h1, h2, h3, h4, _, _, _, h8, h9⟩ :=
      resolve_overlapping_pair Real.sqrt real_isSqrt (twoBalls, true) 0 1
        (ballAt 0 0 5) (ballAt 6 0 5) (by norm_num) rfl rfl hpos hlt
    exact ⟨bs, a1, b1, h1, h2, h3, h4, h8, h9⟩
  · simp [update, outerLoop, List.range_succ, outerBody, attract, twoBalls, ballAt, Ball.mk3,
      innerLoop, collide, Vec2.sub, Vec2.add, Vec2.smul, Vec2.sdiv, List.range', h36, countLoop,
      countStable, center_position, WIN_WIDTH, WIN_HEIGHT, positions, flags]
    norm_num
    simp [countLoop, countStable]
  · simp only [length, Vec2.sub]
    exact real_sqrt_of_sq (by norm_num) (by norm_num)

/-- C3 as stated fails on `threeBalls` over the reals.  At the start of the tick
bodies 0 and 2 are at distance 4.5, more than the sum 4 of their radii, so they do
not overlap.  When `update` examines the pair `(0, 2)` body 0 has been pushed to `-1`
by the pair `(0, 1)`, and the step for `(0, 2)` moves body 0 from `-1` to `-3/4` and
body 2 from `-9/2` to `-19/4`. -/
theorem clear_at_start_counterexample :
    distOf Real.sqrt threeBalls 0 2 = some (9 / 2) ∧
    minDistOf (threeBalls : List (Ball ℝ)) 0 2 = some 4 ∧
    (stateBefore Real.sqrt threeBalls 0 2).map (fun st => positions st.1) =
      some [⟨-1, 0⟩, ⟨3, 0⟩, ⟨-9 / 2, 0⟩] ∧
    ((stateBefore Real.sqrt threeBalls 0 2).bind (collide Real.sqrt 0 2)).map
        (fun st => positions st.1) =
      some [⟨-3 / 4, 0⟩, ⟨3, 0⟩, ⟨-19 / 4, 0⟩] := by
  have h2 : Real.sqrt 4 = 2 := real_sqrt_of_sq (by norm_num) (by norm_num)
  have h49 : Real.sqrt 49 = 7 := real_sqrt_of_sq (by norm_num) (by norm_num)
  have hl : (threeBalls : List (Ball ℝ)).length = 3 := rfl
  refine ⟨?_, ?_, ?_, ?_⟩
  · simp only [distOf, threeBalls, ballAt, Ball.mk3, length, Vec2.sub, List.getElem?_cons_zero,
      List.getElem?_cons_succ, Option.some.injEq]
    exact real_sqrt_of_sq (by norm_num) (by norm_num)
  · simp [minDistOf, threeBalls, ballAt, Ball.mk3]
    norm_num
  · simp [stateBefore, hl, schedule_three, List.takeWhile, runOps, step, attract, threeBalls,
      ballAt, Ball.mk3, collide, Vec2.sub, Vec2.add, Vec2.smul, Vec2.sdiv, h2, center_position,
      WIN_WIDTH, WIN_HEIGHT, positions]
    norm_num
  · simp [stateBefore, hl, schedule_three, List.takeWhile, runOps, step, attract, threeBalls,
      ballAt, Ball.mk3, collide, Vec2.sub, Vec2.add, Vec2.smul, Vec2.sdiv, h2, center_position,
      WIN_WIDTH, WIN_HEIGHT, positions]
    norm_num [h49, h2]

/-- C3, amended.  A pair whose centres are at distance at least `r_i + r_k` in the
state in which the pair is examined is left alone: the inner body for `(i, k)`
succeeds and returns the state unchanged, so no position changes. -/
theorem clear_pair_left_alone (sqrt : F → F) (st : List (Ball F) × Bool) (i k : Nat) (d m : F)
    (hd : distOf sqrt st.1 i k = some d) (hm : minDistOf st.1 i k = some m) (hge : m ≤ d) :
    collide sqrt i k st = some st := by
  unfold distOf at hd
  unfold minDistOf at hm
  unfold collide
  cases hi : st.1[i]? with
  | none => simp [hi] at hd
  | some a =>
    cases hk : st.1[k]? with
    | none => simp [hi, hk] at hd
    | some b =>
      simp only [hi, hk, Option.some.injEq] at hd hm
      simp only []
      rw [if_neg]
      have hd' : sqrt ((Vec2.sub a.position b.position).x * (Vec2.sub a.position b.position).x +
        (Vec2.sub a.position b.position).y * (Vec2.sub a.position b.position).y) = d := hd
      rw [hd', hm]
      exact not_lt.2 hge

/-- Witness of the amended C3: the pair `(1, 2)` of `threeBalls`, in the state in
which `update` examines it. -/
theorem clear_pair_left_alone_witness :
    ∃ st : List (Ball ℝ) × Bool, stateBefore Real.sqrt threeBalls 1 2 = some st ∧
      distOf Real.sqrt st.1 1 2 = some (31 / 4) ∧ minDistOf st.1 1 2 = some 4 ∧
      collide Real.sqrt 1 2 st = some st := by
  have h2 : Real.sqrt 4 = 2 := real_sqrt_of_sq (by norm_num) (by norm_num)
  have h49 : Real.sqrt 49 = 7 := real_sqrt_of_sq (by norm_num) (by norm_num)
  have h16 : Real.sqrt 16 = 4 := real_sqrt_of_sq (by norm_num) (by norm_num)
  have h961 : Real.sqrt 961 = 31 := real_sqrt_of_sq (by norm_num) (by norm_num)
  have hl : (threeBalls : List (Ball ℝ)).length = 3 := rfl
  have hst : ∃ st : List (Ball ℝ) × Bool, stateBefore Real.sqrt threeBalls 1 2 = some st ∧
      distOf Real.sqrt st.1 1 2 = some (31 / 4) ∧ minDistOf st.1 1 2 = some 4 := by
    simp [stateBefore, hl, schedule_three, List.takeWhile, runOps, step, attract, threeBalls,
      ballAt, Ball.mk3, collide, Vec2.sub, Vec2.add, Vec2.smul, Vec2.sdiv, h2, center_position,
      WIN_WIDTH, WIN_HEIGHT, distOf, minDistOf, length]
    norm_num [h49, h2]
    norm_num [h961, h16]
  obtain ⟨st, h1, h2, h3⟩ := hst
  exact ⟨st, h1, h2, h3, clear_pair_left_alone Real.sqrt st 1 2 _ _ h2 h3 (by norm_num)⟩

/-- With a genuine square root, the inner body divides by zero on a pair whose
centres coincide and whose radii have a positive sum. -/
theorem collide_coincident (sqrt : F → F) (hs : IsSqrt sqrt) (st : List (Ball F) × Bool)
    (i k : Nat) (a b : Ball F) (ha : st.1[i]? = some a) (hb : st.1[k]? = some b)
    (hpos : a.position = b.position) (hr : 0 < a.r + b.r) :
    collide sqrt i k st = none := by
  have h0 : sqrt ((Vec2.sub a.position b.position).x * (Vec2.sub a.position b.position).x +
      (Vec2.sub a.position b.position).y * (Vec2.sub a.position b.position).y) = 0 := by
    rw [hpos]
    simp only [Vec2.sub, sub_self, mul_zero, add_zero]
    simpa using hs.sqrt_mul_self (le_refl (0 : F))
  simp only [collide, ha, hb, h0, if_pos hr, Vec2.sdiv, if_true]

/-- C4 fails on the code: for two bodies of radius 5 with the same centre the
inner body for the pair `(0, 1)` is reached (the state before it exists), the test
`dist < minDist` succeeds with `dist = 0`, line 113 divides by `dist`, and so
neither the step nor `update` has a defined result. -/
theorem update_coincident_undefined :
    collide Real.sqrt 0 1 (coincidentBalls, true) = none ∧
    stateBefore Real.sqrt coincidentBalls 0 1 ≠ none ∧
    update Real.sqrt coincidentBalls 1 = none := by
  have hc : collide Real.sqrt 0 1
      ((coincidentBalls : List (Ball ℝ)).set 0
        { ballAt (3 : ℝ) 4 5 with
          velocity := Vec2.add (ballAt (3 : ℝ) 4 5).velocity
            (Vec2.smul 0.002 (Vec2.sub center_position (ballAt (3 : ℝ) 4 5).position)) }, true) =
      none :=
    collide_coincident Real.sqrt real_isSqrt _ 0 1 _ (ballAt 3 4 5) rfl rfl rfl
      (by simp only [ballAt, Ball.mk3]; norm_num)
  refine ⟨?_, ?_, ?_⟩
  · exact collide_coincident Real.sqrt real_isSqrt _ 0 1 (ballAt 3 4 5) (ballAt 3 4 5) rfl rfl rfl
      (by simp only [ballAt, Ball.mk3]; norm_num)
  · have hl : (coincidentBalls : List (Ball ℝ)).length = 2 := rfl
    simp [stateBefore, hl, schedule_two, List.takeWhile, runOps, step, attract, coincidentBalls]
  · have hl : (coincidentBalls : List (Ball ℝ)).length = 2 := rfl
    have ha : attract Real.sqrt 0 (coincidentBalls : List (Ball ℝ)) = some
        ((coincidentBalls : List (Ball ℝ)).set 0
        { ballAt (3 : ℝ) 4 5 with
          velocity := Vec2.add (ballAt (3 : ℝ) 4 5).velocity
            (Vec2.smul 0.002 (Vec2.sub center_position (ballAt (3 : ℝ) 4 5).position)) }) := rfl
    simp only [update, hl, outerLoop, List.range_succ, List.range_zero, List.nil_append,
      List.cons_append, List.foldlM_cons, outerBody, ha, innerLoop, List.range', hc]
    rfl

/-! ## The schedule of `update` -/

theorem runOps_cons (sqrt : F → F) (op : Op) (ops : List Op) (st : List (Ball F) × Bool) :
    runOps sqrt (op :: ops) st = (step sqrt st op).bind (runOps sqrt ops) := by
  simp only [runOps, List.foldlM_cons]
  rfl

theorem runOps_append (sqrt : F → F) (ops1 ops2 : List Op) (st : List (Ball F) × Bool) :
    runOps sqrt (ops1 ++ ops2) st = (runOps sqrt ops1 st).bind (runOps sqrt ops2) := by
  simp only [runOps, List.foldlM_append]
  rfl

theorem foldlM_collide_eq (sqrt : F → F) (i : Nat) (ks : List Nat) (st : List (Ball F) × Bool) :
    ks.foldlM (fun st k => collide sqrt i k st) st = runOps sqrt (ks.map (Op.pair i)) st := by
  induction ks generalizing st with
  | nil => rfl
  | cons k ks ih =>
    rw [List.map_cons, runOps_cons, List.foldlM_cons]
    show (collide sqrt i k st).bind _ = (collide sqrt i k st).bind _
    cases collide sqrt i k st with
    | none => rfl
    | some st1 => exact ih st1

theorem outerBody_eq (sqrt : F → F) (nBalls i : Nat) (st : List (Ball F) × Bool) :
    outerBody sqrt nBalls st i = runOps sqrt (rowOps nBalls i) st := by
  rw [rowOps, runOps_cons]
  simp only [outerBody, step]
  cases attract sqrt i st.1 with
  | none => rfl
  | some balls => exact foldlM_collide_eq sqrt i _ _

theorem foldlM_outerBody_eq (sqrt : F → F) (nBalls : Nat) (is : List Nat)
    (st : List (Ball F) × Bool) :
    is.foldlM (outerBody sqrt nBalls) st = runOps sqrt ((is.map (rowOps nBalls)).flatten) st := by
  induction is generalizing st with
  | nil => rfl
  | cons i is ih =>
    rw [List.map_cons, List.flatten_cons, runOps_append, List.foldlM_cons, outerBody_eq]
    show (runOps sqrt (rowOps nBalls i) st).bind _ = _
    cases runOps sqrt (rowOps nBalls i) st with
    | none => rfl
    | some st1 => exact ih st1

/-- The two nested loops of `update` run the steps of the schedule in order. -/
theorem outerLoop_eq_runOps (sqrt : F → F) (nBalls : Nat) (st : List (Ball F) × Bool) :
    outerLoop sqrt nBalls st = runOps sqrt (schedule nBalls) st :=
  foldlM_outerBody_eq sqrt nBalls _ st

/-! ## What one step does to the flags and counters -/

theorem collide_cases (sqrt : F → F) (i k : Nat) (st st1 : List (Ball F) × Bool)
    (h : collide sqrt i k st = some st1) :
    (foundBy sqrt st (Op.pair i k) = [] ∧ st1 = st) ∨
    (foundBy sqrt st (Op.pair i k) = [(i, k)] ∧ ∃ a b pa pb,
      st.1[i]? = some a ∧ st.1[k]? = some b ∧
      st1 = ((st.1.set i { a with stable := false, position := pa }).set k
        { b with stable := false, position := pb }, false)) := by
  unfold collide at h
  cases hi : st.1[i]? with
  | none => simp [hi] at h
  | some a =>
    cases hk : st.1[k]? with
    | none => simp [hi, hk] at h
    | some b =>
      simp only [hi, hk] at h
      by_cases hlt : sqrt ((Vec2.sub a.position b.position).x * (Vec2.sub a.position b.position).x +
          (Vec2.sub a.position b.position).y * (Vec2.sub a.position b.position).y) < a.r + b.r
      · right
        rw [if_pos hlt] at h
        cases hs : Vec2.sdiv (Vec2.sub a.position b.position)
            (sqrt ((Vec2.sub a.position b.position).x * (Vec2.sub a.position b.position).x +
          (Vec2.sub a.position b.position).y * (Vec2.sub a.position b.position).y)) with
        | none => simp [hs] at h
        | some axe =>
          simp only [hs, Option.some.injEq] at h
          refine ⟨?_, a, b, _, _, rfl, rfl, h.symm⟩
          simp [foundBy, overlapping, distOf, minDistOf, hi, hk, length, hlt]
      · left
        rw [if_neg hlt] at h
        refine ⟨?_, (Option.some.inj h).symm⟩
        simp [foundBy, overlapping, distOf, minDistOf, hi, hk, length, hlt]

theorem attract_cases (sqrt : F → F) (i : Nat) (balls balls1 : List (Ball F))
    (h : attract sqrt i balls = some balls1) :
    ∃ a v, balls[i]? = some a ∧ balls1 = balls.set i { a with velocity := v } := by
  unfold attract at h
  cases hi : balls[i]? with
  | none => simp [hi] at h
  | some a =>
    simp only [hi, Option.some.injEq] at h
    exact ⟨a, _, rfl, h.symm⟩

theorem step_facts (sqrt : F → F) (op : Op) (st st1 : List (Ball F) × Bool)
    (h : step sqrt st op = some st1) :
    st1.1.length = st.1.length ∧
    st1.2 = (st.2 && (foundBy sqrt st op).isEmpty) ∧
    ∀ j, (st1.1[j]?).map (fun b => (b.stable, b.stableCount)) =
      (st.1[j]?).map (fun b => (b.stable && !touches (foundBy sqrt st op) j, b.stableCount)) := by
  cases op with
  | attract i =>
    simp only [step] at h
    cases ha : attract sqrt i st.1 with
    | none => simp [ha] at h
    | some balls =>
      simp only [ha, Option.some.injEq] at h
      obtain ⟨a, v, hai, hb⟩ := attract_cases sqrt i _ _ ha
      subst h
      subst hb
      refine ⟨by simp, by simp [foundBy], ?_⟩
      intro j
      simp only [foundBy, touches, List.any_nil, Bool.not_false, Bool.and_true]
      by_cases hj : i = j
      · subst hj
        simp [List.getElem?_set, hai]
        by_contra hc
        rw [List.getElem?_eq_none (by omega)] at hai
        exact Option.noConfusion hai
      · simp [List.getElem?_set, hj]
  | pair i k =>
    simp only [step] at h
    rcases collide_cases sqrt i k st st1 h with ⟨hf, hst⟩ | ⟨hf, a, b, pa, pb, hi, hk, hst⟩
    · subst hst
      rw [hf]
      refine ⟨rfl, by simp, ?_⟩
      intro j
      simp [touches]
    · rw [hf]
      subst hst
      have hil : i < st.1.length := by
        by_contra hc
        rw [List.getElem?_eq_none (by omega)] at hi
        exact Option.noConfusion hi
      have hkl : k < st.1.length := by
        by_contra hc
        rw [List.getElem?_eq_none (by omega)] at hk
        exact Option.noConfusion hk
      refine ⟨by simp, by simp, ?_⟩
      intro j
      simp only [touches, List.any_cons, List.any_nil, Bool.or_false]
      by_cases hjk : k = j
      · subst hjk
        simp [List.getElem?_set, hkl, hk]
      · by_cases hji : i = j
        · subst hji
          simp [List.getElem?_set, hjk, hil, hi]
        · simp [List.getElem?_set, hjk, hji]

theorem touches_append (ps qs : List (Nat × Nat)) (j : Nat) :
    touches (ps ++ qs) j = (touches ps j || touches qs j) := by
  simp [touches, List.any_append]

theorem runOps_facts (sqrt : F → F) (ops : List Op) (st st1 : List (Ball F) × Bool)
    (h : runOps sqrt ops st = some st1) :
    st1.1.length = st.1.length ∧
    st1.2 = (st.2 && (overlapLog sqrt ops st).isEmpty) ∧
    ∀ j, (st1.1[j]?).map (fun b => (b.stable, b.stableCount)) =
      (st.1[j]?).map (fun b => (b.stable && !touches (overlapLog sqrt ops st) j, b.stableCount)) := by
  induction ops generalizing st with
  | nil =>
    have : st1 = st := by
      simp only [runOps, List.foldlM_nil] at h
      exact (Option.some.inj h).symm
    subst this
    simp [overlapLog, touches]
  | cons op ops ih =>
    rw [runOps_cons] at h
    cases hs : step sqrt st op with
    | none => simp [hs] at h
    | some st2 =>
      rw [hs, Option.some_bind] at h
      obtain ⟨l1, s1, f1⟩ := step_facts sqrt op st st2 hs
      obtain ⟨l2, s2, f2⟩ := ih st2 h
      have hlog : overlapLog sqrt (op :: ops) st = foundBy sqrt st op ++ overlapLog sqrt ops st2 := by
        simp only [overlapLog, hs]
      rw [hlog]
      refine ⟨l2.trans l1, ?_, ?_⟩
      · rw [s2, s1]
        cases foundBy sqrt st op <;> simp [Bool.and_assoc]
      · intro j
        rw [f2 j]
        have f1j := f1 j
        cases hj2 : st2.1[j]? with
        | none =>
          cases hj : st.1[j]? with
          | none => rfl
          | some b => simp [hj2, hj] at f1j
        | some b2 =>
          cases hj : st.1[j]? with
          | none => simp [hj2, hj] at f1j
          | some b =>
            simp only [hj2, hj, Option.map_some', Option.some.injEq, Prod.mk.injEq] at f1j ⊢
            rw [f1j.1, f1j.2, touches_append]
            simp [Bool.and_assoc]

theorem countLoop_facts (l l1 : List (Ball F)) (h : countLoop l = some l1) :
    l1.length = l.length ∧
    ∀ (j : Nat) (b : Ball F), l[j]? = some b → ∃ b1 : Ball F, l1[j]? = some b1 ∧
      b1.stableCount = (if b.stable then b.stableCount + 1 else 0) ∧
      b1.position = b.position ∧ b1.stable = b.stable := by
  induction l generalizing l1 with
  | nil =>
    simp only [countLoop, Option.some.injEq] at h
    subst h
    simp
  | cons c rest ih =>
    simp only [countLoop] at h
    cases hc : countStable c with
    | none => simp [hc] at h
    | some c1 =>
      cases hr : countLoop rest with
      | none => simp [hc, hr] at h
      | some rest1 =>
        simp only [hc, hr, Option.some.injEq] at h
        subst h
        obtain ⟨hl, hf⟩ := ih rest1 hr
        refine ⟨by simp [hl], ?_⟩
        intro j b hb
        cases j with
        | zero =>
          simp only [List.getElem?_cons_zero, Option.some.injEq] at hb
          subst hb
          refine ⟨c1, by simp, ?_⟩
          unfold countStable at hc
          by_cases hst : c.stable = true
          · rw [if_pos hst] at hc
            by_cases hov : c.stableCount + 1 < 2 ^ 31
            · rw [if_pos hov] at hc
              simp only [Option.some.injEq] at hc
              subst hc
              simp [hst]
            · rw [if_neg hov] at hc
              exact Option.noConfusion hc
          · rw [if_neg hst] at hc
            simp only [Option.some.injEq] at hc
            subst hc
            simp [hst]
        | succ j =>
          simp only [List.getElem?_cons_succ] at hb ⊢
          exact hf j b hb

theorem update_facts (sqrt : F → F) (balls balls1 : List (Ball F)) (speed : F) (stable : Bool)
    (h : update sqrt balls speed = some (balls1, stable)) :
    balls1.length = balls.length ∧
    stable = (overlapsFound sqrt balls).isEmpty ∧
    ∀ (j : Nat) (b : Ball F), balls[j]? = some b → ∃ b1 : Ball F, balls1[j]? = some b1 ∧
      b1.stableCount =
        (if b.stable && !involved sqrt balls j then b.stableCount + 1 else 0) := by
  unfold update at h
  cases ho : outerLoop sqrt balls.length (balls, true) with
  | none => simp [ho] at h
  | some st =>
    cases hc : countLoop st.1 with
    | none => simp [ho, hc] at h
    | some counted =>
      simp only [ho, hc, Option.some.injEq, Prod.mk.injEq] at h
      obtain ⟨h1, h2⟩ := h
      subst h1
      subst h2
      rw [outerLoop_eq_runOps] at ho
      obtain ⟨l1, s1, f1⟩ := runOps_facts sqrt _ _ _ ho
      obtain ⟨l2, f2⟩ := countLoop_facts _ _ hc
      refine ⟨l2.trans l1, by simpa [overlapsFound] using s1, ?_⟩
      intro j b hb
      have f1j := f1 j
      simp only [hb, Option.map_some'] at f1j
      cases hj : st.1[j]? with
      | none => simp [hj] at f1j
      | some c =>
        simp only [hj, Option.map_some', Option.some.injEq, Prod.mk.injEq] at f1j
        obtain ⟨b1, hb1, hcnt, _, _⟩ := f2 j c hj
        refine ⟨b1, hb1, ?_⟩
        rw [hcnt, f1j.1, f1j.2]
        rfl

theorem prepared_getElem? (balls : List (Ball F)) (j : Nat) :
    (prepared balls)[j]? = (balls[j]?).map fun ball => Ball.save { ball with stable := true } := by
  simp [prepared]

/-- C5. One physics tick (all flags set, positions saved, `update` run) that
completes leaves the population with the same bodies, and the `stableCount` of body
`j` is `0` if `j` belongs to a pair that `update` found overlapping during the tick
and its value before the tick plus `1` otherwise. -/
theorem stableCount_after_tick (sqrt : F → F) (s s1 : Sim F) (h : tick sqrt s = some s1)
    (j : Nat) (b : Ball F) (hb : s.balls[j]? = some b) :
    s1.balls.length = s.balls.length ∧
    ∃ b1, s1.balls[j]? = some b1 ∧
      b1.stableCount = (if involved sqrt (prepared s.balls) j then 0 else b.stableCount + 1) := by
  unfold tick at h
  cases hu : update sqrt (prepared s.balls) 1 with
  | none => simp [hu] at h
  | some res =>
    obtain ⟨balls1, stable⟩ := res
    simp only [hu, Option.some.injEq] at h
    subst h
    obtain ⟨hl, _, hf⟩ := update_facts sqrt _ _ _ _ hu
    have hp : (prepared s.balls)[j]? = some (Ball.save { b with stable := true }) := by
      rw [prepared_getElem?, hb]
      rfl
    obtain ⟨b1, hb1, hcnt⟩ := hf j _ hp
    refine ⟨by simpa [prepared] using hl, b1, hb1, ?_⟩
    rw [hcnt]
    cases involved sqrt (prepared s.balls) j <;> simp [Ball.save]

theorem tick_ok_count (sqrt : F → F) (s s1 : Sim F) (h : tick sqrt s = some s1) :
    s1.ok_count =
      (if overlapsFound sqrt (prepared s.balls) = [] then (s.ok_count + 1) % 2 ^ 32
       else if s.ok_count < 200 then 0 else s.ok_count) := by
  unfold tick at h
  cases hu : update sqrt (prepared s.balls) 1 with
  | none => simp [hu] at h
  | some res =>
    obtain ⟨balls1, stable⟩ := res
    simp only [hu, Option.some.injEq] at h
    subst h
    obtain ⟨_, hs, _⟩ := update_facts sqrt _ _ _ _ hu
    subst hs
    cases hlog : overlapsFound sqrt (prepared s.balls) with
    | nil => simp
    | cons p ps => simp

/-! ## The frame loop -/

theorem afterEvents_fields (sqrt : F → F) (inp : Input F) (s : Sim F) :
    (afterEvents sqrt inp s).ok_count = s.ok_count ∧
    (afterEvents sqrt inp s).speedDownCounter = s.speedDownCounter ∧
    (afterEvents sqrt inp s).speedDownFactor = s.speedDownFactor ∧
    (afterEvents sqrt inp s).balls = s.balls := by
  unfold afterEvents approachGoal spaceKey
  cases inp.clic <;> cases inp.space <;> simp <;> split_ifs <;> simp

theorem moveLoop_facts (f : F) (hf : f ≠ 0) (balls : List (Ball F)) :
    ∃ moved, moveLoop f balls = some moved ∧
      positions moved =
        balls.map (fun b => Vec2.add b.position (Vec2.smul (0.016 / f) b.velocity)) := by
  induction balls with
  | nil => exact ⟨[], rfl, rfl⟩
  | cons b rest ih =>
    obtain ⟨moved, hm, hp⟩ := ih
    have hcons : moveLoop f (b :: rest) = some
        ({ b with position := Vec2.add b.position (Vec2.smul (0.016 / f) b.velocity) } ::
          moved) := by
      simp only [moveLoop, if_neg hf, hm]
    refine ⟨_, hcons, ?_⟩
    simp only [positions, List.map_cons] at hp ⊢
    rw [hp]

theorem moveLoop_some (f : F) (balls moved : List (Ball F)) (h : moveLoop f balls = some moved) :
    positions moved =
      balls.map (fun b => Vec2.add b.position (Vec2.smul (0.016 / f) b.velocity)) := by
  by_cases hf : f = 0
  · cases balls with
    | nil =>
      simp only [moveLoop, Option.some.injEq] at h
      subst h
      rfl
    | cons b rest => simp [moveLoop, hf] at h
  · obtain ⟨m, hm, hp⟩ := moveLoop_facts f hf balls
    rw [hm] at h
    cases h
    exact hp

theorem frame_some (sqrt : F → F) (inp : Input F) (s s1 : Sim F)
    (h : frame sqrt inp s = some s1) :
    ∃ mid, beforeUpdatePos sqrt inp s = some mid ∧
      s1.speedDownFactor = mid.speedDownFactor ∧
      s1.speedDownCounter = mid.speedDownCounter - 1 ∧
      s1.ok_count = mid.ok_count ∧
      positions s1.balls = mid.balls.map
        (fun b => Vec2.add b.position (Vec2.smul (0.016 / mid.speedDownFactor) b.velocity)) := by
  unfold frame at h
  cases hb : beforeUpdatePos sqrt inp s with
  | none => simp [hb] at h
  | some mid =>
    simp only [hb, updatePos] at h
    cases hm : moveLoop mid.speedDownFactor mid.balls with
    | none => simp [hm] at h
    | some moved =>
      simp only [hm, Option.some.injEq] at h
      subst h
      exact ⟨mid, rfl, rfl, rfl, rfl, moveLoop_some _ _ _ hm⟩

theorem frame_no_tick (sqrt : F → F) (inp : Input F) (s : Sim F)
    (hc : s.speedDownCounter ≠ 0) (hf : s.speedDownFactor ≠ 0) :
    ∃ s1, frame sqrt inp s = some s1 ∧ s1.speedDownCounter = s.speedDownCounter - 1 ∧
      s1.speedDownFactor = s.speedDownFactor := by
  obtain ⟨_, h2, h3, _⟩ := afterEvents_fields sqrt inp s
  have hb : beforeUpdatePos sqrt inp s = some (afterEvents sqrt inp s) := by
    unfold beforeUpdatePos
    rw [if_neg (by rw [h2]; exact hc)]
  obtain ⟨moved, hm, _⟩ := moveLoop_facts (afterEvents sqrt inp s).speedDownFactor
    (by rw [h3]; exact hf) (afterEvents sqrt inp s).balls
  have hfr : frame sqrt inp s = some
      { afterEvents sqrt inp s with
        balls := moved
        speedDownCounter := (afterEvents sqrt inp s).speedDownCounter - 1 } := by
    simp only [frame, hb, updatePos, hm]
  refine ⟨_, hfr, ?_, ?_⟩
  · simp [h2]
  · simp [h3]

theorem frame_tick_counter (sqrt : F → F) (inp : Input F) (s s1 : Sim F)
    (ht : ticks s) (h : frame sqrt inp s = some s1) :
    s1.speedDownCounter = s1.speedDownFactor - 1 := by
  obtain ⟨mid, hb, h1, h2, _⟩ := frame_some sqrt inp s s1 h
  obtain ⟨_, e2, _, _⟩ := afterEvents_fields sqrt inp s
  unfold beforeUpdatePos at hb
  rw [if_pos (by rw [e2]; exact ht)] at hb
  unfold tick at hb
  cases hu : update sqrt (prepared (afterEvents sqrt inp s).balls) 1 with
  | none => simp [hu] at hb
  | some res =>
    simp only [hu, Option.some.injEq] at hb
    subst hb
    rw [h1, h2]

theorem run_between_ticks (sqrt : F → F) (inps : List (Input F)) (c : Nat) (s : Sim F)
    (hf : s.speedDownFactor ≠ 0) (hc : s.speedDownCounter = (c : F)) (hlen : inps.length ≤ c) :
    ∃ s1, runFrames sqrt inps s = some s1 ∧
      s1.speedDownCounter = ((c - inps.length : Nat) : F) ∧
      s1.speedDownFactor = s.speedDownFactor := by
  induction inps generalizing c s with
  | nil => exact ⟨s, rfl, by simpa using hc, rfl⟩
  | cons inp inps ih =>
    simp only [List.length_cons] at hlen
    obtain ⟨d, rfl⟩ : ∃ d, c = d + 1 := ⟨c - 1, by omega⟩
    have hne : s.speedDownCounter ≠ 0 := by
      rw [hc]
      exact Nat.cast_ne_zero.2 (by omega)
    obtain ⟨s1, h1, h2, h3⟩ := frame_no_tick sqrt inp s hne hf
    have hc1 : s1.speedDownCounter = (d : F) := by
      rw [h2, hc]
      push_cast
      ring
    obtain ⟨s2, g1, g2, g3⟩ := ih d s1 (by rw [h3]; exact hf) hc1 (by omega)
    refine ⟨s2, ?_, ?_, by rw [g3, h3]⟩
    · simp only [runFrames, List.foldlM_cons, h1] at g1 ⊢
      exact g1
    · rw [g2]
      congr 1
      simp only [List.length_cons]
      omega

/-- C9. If a physics tick fires on a frame and the frame leaves
`speedDownFactor = n` with `n ≥ 1` (in particular `n = 1` or `n = 10`, the two values
of the goal), then, whatever the inputs of the following frames (so also when the
goal stays at `n`): the `n - 1` following frames all complete and none of them
starts with a tick, and the frame after them, the `n`-th after the tick, starts with
a tick.  On every frame that completes, with or without a tick, `updatePos` moves
every position by `(0.016 / speedDownFactor) * velocity` and lowers the countdown
by 1. -/
theorem tick_cadence (sqrt : F → F) (n : Nat) (hn : 0 < n) (inp : Input F) (s s1 : Sim F)
    (htick : ticks s) (hframe : frame sqrt inp s = some s1)
    (hfactor : s1.speedDownFactor = (n : F))
    (inps : List (Input F)) (hlen : inps.length = n - 1) :
    (∃ s2, runFrames sqrt inps s1 = some s2 ∧ ticks s2) ∧
    (∀ m, m < n - 1 → ∃ sm, runFrames sqrt (inps.take m) s1 = some sm ∧ ¬ ticks sm) ∧
    (∀ (i : Input F) (t t1 : Sim F), frame sqrt i t = some t1 →
      ∃ mid, beforeUpdatePos sqrt i t = some mid ∧
        t1.speedDownCounter = mid.speedDownCounter - 1 ∧
        positions t1.balls = mid.balls.map
          (fun b => Vec2.add b.position (Vec2.smul (0.016 / mid.speedDownFactor) b.velocity))) := by
  have hf0 : s1.speedDownFactor ≠ 0 := by
    rw [hfactor]
    exact Nat.cast_ne_zero.2 (by omega)
  have hc : s1.speedDownCounter = ((n - 1 : Nat) : F) := by
    rw [frame_tick_counter sqrt inp s s1 htick hframe, hfactor]
    rw [Nat.cast_sub (by omega)]
    simp
  refine ⟨?_, ?_, ?_⟩
  · obtain ⟨s2, h1, h2, _⟩ := run_between_ticks sqrt inps (n - 1) s1 hf0 hc (by omega)
    refine ⟨s2, h1, ?_⟩
    unfold ticks
    rw [h2, hlen]
    simp
  · intro m hm
    obtain ⟨sm, h1, h2, _⟩ := run_between_ticks sqrt (inps.take m) (n - 1) s1 hf0 hc
      (by rw [List.length_take]; omega)
    refine ⟨sm, h1, ?_⟩
    unfold ticks
    rw [h2, List.length_take, hlen]
    exact Nat.cast_ne_zero.2 (by omega)
  · intro i t t1 h
    obtain ⟨mid, hb, _, h2, _, h4⟩ := frame_some sqrt i t t1 h
    exact ⟨mid, hb, h2, h4⟩

theorem frame_ok_count (sqrt : F → F) (inp : Input F) (s s1 : Sim F)
    (h : frame sqrt inp s = some s1) (h200 : 200 ≤ s.ok_count) (hw : s.ok_count + 1 < 2 ^ 32) :
    200 ≤ s1.ok_count ∧ s1.ok_count ≤ s.ok_count + 1 := by
  obtain ⟨mid, hb, _, _, h3, _⟩ := frame_some sqrt inp s s1 h
  obtain ⟨e1, _, _, _⟩ := afterEvents_fields sqrt inp s
  rw [h3]
  unfold beforeUpdatePos at hb
  split_ifs at hb with hz
  · have := tick_ok_count sqrt _ _ hb
    rw [e1] at this
    rw [this]
    split_ifs <;> omega
  · cases hb
    rw [e1]
    omega

theorem runFrames_ok_count (sqrt : F → F) (inps : List (Input F)) (s s1 : Sim F)
    (h : runFrames sqrt inps s = some s1) (h200 : 200 ≤ s.ok_count)
    (hw : s.ok_count + inps.length < 2 ^ 32) :
    200 ≤ s1.ok_count := by
  induction inps generalizing s with
  | nil =>
    simp only [runFrames, List.foldlM_nil] at h
    cases h
    exact h200
  | cons inp inps ih =>
    simp only [runFrames, List.foldlM_cons] at h
    simp only [List.length_cons] at hw
    cases hf : frame sqrt inp s with
    | none => simp [hf] at h
    | some s2 =>
      rw [hf] at h
      obtain ⟨a, b⟩ := frame_ok_count sqrt inp s s2 hf h200 (by omega)
      exact ih s2 h a (by omega)

/-- C6. After a physics tick `ok_count` is `ok_count + 1` (in 32-bit arithmetic)
when no pair was found overlapping, `0` when some pair overlapped and `ok_count` was
below 200, and unchanged when some pair overlapped and `ok_count` was at least 200.
Consequently, once `ok_count` is at least 200 after a tick, it stays at least 200,
hence different from 0, over every later run of frames during which the 32-bit
counter cannot wrap. -/
theorem ok_count_hysteresis (sqrt : F → F) (s s1 : Sim F) (h : tick sqrt s = some s1)
    (inps : List (Input F)) (s2 : Sim F) (hrun : runFrames sqrt inps s1 = some s2)
    (hwrap : s1.ok_count + inps.length < 2 ^ 32) :
    s1.ok_count =
      (if overlapsFound sqrt (prepared s.balls) = [] then (s.ok_count + 1) % 2 ^ 32
       else if s.ok_count < 200 then 0 else s.ok_count) ∧
    (200 ≤ s1.ok_count → 200 ≤ s2.ok_count ∧ s2.ok_count ≠ 0) := by
  refine ⟨tick_ok_count sqrt s s1 h, fun h200 => ?_⟩
  have := runFrames_ok_count sqrt inps s1 s2 hrun h200 hwrap
  exact ⟨this, by omega⟩

/-! ## Concrete runs -/

/-- Witness of C1: 150 saves on a freshly built body over the rationals. -/
theorem trail_keeps_last_positions_witness :
    (Ball.saveSeq (ballAt (0 : ℚ) 0 1) ramp).position_history.length = max_history ∧
    (Ball.saveSeq (ballAt (0 : ℚ) 0 1) ramp).current_idx < max_history ∧
    Ball.getVA (Ball.saveSeq (ballAt (0 : ℚ) 0 1) ramp) =
      ((ramp : List (Vec2 ℚ)).drop ((ramp : List (Vec2 ℚ)).length - max_history)).map some :=
  trail_keeps_last_positions (ballAt 0 0 1) ramp (by simp [ballAt, Ball.mk3]) rfl
    (by simp only [ramp, List.length_map, List.length_range, max_history]; norm_num)

/-- Witness of C5 on the reals: a tick on `agedBalls`, three bodies whose
`stableCount` is 7.  The tick completes; body 0 belongs to the overlapping pair
`(0, 1)` and its `stableCount` after the tick is 0; body 2 belongs to no overlapping
pair and its `stableCount` after the tick is 8. -/
theorem stableCount_after_tick_witness :
    ∃ s1 : Sim ℝ, tick Real.sqrt (dueSim agedBalls 0) = some s1 ∧
      involved Real.sqrt (prepared (agedBalls : List (Ball ℝ))) 0 = true ∧
      involved Real.sqrt (prepared (agedBalls : List (Ball ℝ))) 2 = false ∧
      (∃ b0, s1.balls[0]? = some b0 ∧ b0.stableCount = 0) ∧
      (∃ b2, s1.balls[2]? = some b2 ∧ b2.stableCount = 8) := by
  have h36 : Real.sqrt 36 = 6 := real_sqrt_of_sq (by norm_num) (by norm_num)
  have h108 : Real.sqrt 11664 = 108 := real_sqrt_of_sq (by norm_num) (by norm_num)
  have h98 : Real.sqrt 9604 = 98 := real_sqrt_of_sq (by norm_num) (by norm_num)
  have hs : ∃ s1 : Sim ℝ, tick Real.sqrt (dueSim agedBalls 0) = some s1 := by
    simp [tick, prepared, dueSim, startSim, update, outerLoop, List.range_succ, outerBody, attract,
      agedBalls, agedAt, ballAt, Ball.mk3, innerLoop, collide, Vec2.sub, Vec2.add, Vec2.smul,
      Vec2.sdiv, List.range', h36, center_position, WIN_WIDTH, WIN_HEIGHT, Ball.save]
    norm_num [h108, h98]
    simp [countLoop, countStable]
  have hl : (prepared (agedBalls : List (Ball ℝ))).length = 3 := rfl
  have hlog : overlapsFound Real.sqrt (prepared (agedBalls : List (Ball ℝ))) = [(0, 1)] := by
    simp [overlapsFound, hl, schedule_three, overlapLog, foundBy, step, overlapping, distOf,
      minDistOf, length, prepared, attract, agedBalls, agedAt, ballAt, Ball.mk3, collide,
      Vec2.sub, Vec2.add, Vec2.smul, Vec2.sdiv, h36, center_position, WIN_WIDTH, WIN_HEIGHT,
      Ball.save]
    norm_num [h108, h98]
  have hinv0 : involved Real.sqrt (prepared (agedBalls : List (Ball ℝ))) 0 = true := by
    simp [involved, hlog, touches]
  have hinv2 : involved Real.sqrt (prepared (agedBalls : List (Ball ℝ))) 2 = false := by
    simp [involved, hlog, touches]
  obtain ⟨s1, h1⟩ := hs
  obtain ⟨_, b0, hb0, hc0⟩ := stableCount_after_tick Real.sqrt _ s1 h1 0 (agedAt 0 0 5) rfl
  obtain ⟨_, b2, hb2, hc2⟩ := stableCount_after_tick Real.sqrt _ s1 h1 2 (agedAt 106 0 5) rfl
  have e : (dueSim (agedBalls : List (Ball ℝ)) 0).balls = agedBalls := rfl
  rw [e, hinv0] at hc0
  rw [e, hinv2] at hc2
  refine ⟨s1, h1, hinv0, hinv2, ⟨b0, hb0, ?_⟩, ⟨b2, hb2, ?_⟩⟩
  · rw [hc0]
    rfl
  · rw [hc2]
    simp [agedAt]

theorem tick_oneBall (ok : Nat) :
    ∃ s1 : Sim ℝ, tick Real.sqrt (dueSim oneBall ok) = some s1 ∧
      s1.speedDownFactor = 10 ∧ s1.speedDownCounter = 10 ∧ s1.ok_count = (ok + 1) % 2 ^ 32 := by
  simp [tick, prepared, dueSim, startSim, update, outerLoop, List.range_succ, outerBody, attract,
    oneBall, ballAt, Ball.mk3, innerLoop, List.range', center_position, WIN_WIDTH, WIN_HEIGHT,
    Ball.save, Vec2.sub, Vec2.add, Vec2.smul, countLoop, countStable]

theorem tick_twoBalls (ok : Nat) :
    tick Real.sqrt (dueNow twoBalls ok : Sim ℝ) =
      some (afterFirst (if ok < 200 then 0 else ok)) := by
  have h36 : Real.sqrt 36 = 6 := real_sqrt_of_sq (by norm_num) (by norm_num)
  simp [tick, prepared, dueNow, startSim, update, outerLoop, List.range_succ, outerBody, attract,
      twoBalls, ballAt, Ball.mk3, innerLoop, collide, Vec2.sub, Vec2.add, Vec2.smul, Vec2.sdiv,
      List.range', h36, center_position, WIN_WIDTH, WIN_HEIGHT, Ball.save, afterFirst]
  norm_num
  simp [countLoop, countStable, max_history]

theorem overlaps_twoBalls :
    overlapsFound Real.sqrt (prepared (twoBalls : List (Ball ℝ))) = [(0, 1)] := by
  have h36 : Real.sqrt 36 = 6 := real_sqrt_of_sq (by norm_num) (by norm_num)
  have hl : (prepared (twoBalls : List (Ball ℝ))).length = 2 := rfl
  simp [overlapsFound, hl, schedule_two, overlapLog, foundBy, step, overlapping, distOf,
    minDistOf, length, prepared, attract, twoBalls, ballAt, Ball.mk3, collide, Vec2.sub,
    Vec2.add, Vec2.smul, Vec2.sdiv, h36, center_position, WIN_WIDTH, WIN_HEIGHT, Ball.save]
  norm_num

theorem frame_afterFirst (ok : Nat) :
    frame Real.sqrt quiet (afterFirst ok : Sim ℝ) = some (afterSecond ok) := by
  norm_num [frame, beforeUpdatePos, afterEvents, approachGoal, quiet, afterFirst, afterSecond,
    updatePos, moveLoop, Vec2.add, Vec2.smul]

theorem overlaps_afterSecond (ok : Nat) :
    overlapsFound Real.sqrt (prepared (afterSecond ok : Sim ℝ).balls) = [(0, 1)] := by
  have hl : (prepared (afterSecond ok : Sim ℝ).balls).length = 2 := rfl
  have ha : Real.sqrt 24412812516 = 156246 := real_sqrt_of_sq (by norm_num) (by norm_num)
  have hb : Real.sqrt 244140625 = 15625 := real_sqrt_of_sq (by norm_num) (by norm_num)
  simp [overlapsFound, hl, schedule_two, overlapLog, foundBy, step,
      overlapping, distOf, minDistOf, length, prepared, attract, afterSecond,
      collide, Vec2.sub, Vec2.add, Vec2.smul, Vec2.sdiv, center_position, WIN_WIDTH,
      WIN_HEIGHT, Ball.save, ha, hb]
  norm_num [ha, hb]

theorem frame_afterSecond (ok : Nat) :
    ∃ s2 : Sim ℝ, frame Real.sqrt quiet (afterSecond ok : Sim ℝ) = some s2 := by
  have ha : Real.sqrt 24412812516 = 156246 := real_sqrt_of_sq (by norm_num) (by norm_num)
  have hb : Real.sqrt 244140625 = 15625 := real_sqrt_of_sq (by norm_num) (by norm_num)
  simp [frame, beforeUpdatePos, afterEvents, approachGoal, quiet, afterSecond, tick, prepared,
      update, outerLoop, List.range_succ, outerBody, attract, innerLoop, collide, Vec2.sub,
      Vec2.add, Vec2.smul, Vec2.sdiv, List.range', center_position, WIN_WIDTH, WIN_HEIGHT,
      Ball.save, ha, hb]
  norm_num [ha, hb]
  simp [countLoop, countStable, updatePos, moveLoop]

/-- Witness of C6 on the reals, all three cases and a later tick.
* Hold: a tick on the overlapping `twoBalls` with `ok_count = 200` finds the pair
  `(0, 1)` overlapping and leaves `ok_count = 200`.  In the two frames that follow,
  the second starts with a tick (`afterSecond 200` has countdown zero) that again
  finds the pair `(0, 1)` overlapping, and `ok_count` is still at least 200 after it.
* Reset: the same tick with `ok_count = 199` gives `ok_count = 0`.
* Increment: a tick on a single body with `ok_count = 199` gives `ok_count = 200`. -/
theorem ok_count_hysteresis_witness :
    ∃ s2 s3 s4 : Sim ℝ,
      tick Real.sqrt (dueNow twoBalls 200) = some (afterFirst 200) ∧
      overlapsFound Real.sqrt (prepared (dueNow twoBalls 200 : Sim ℝ).balls) = [(0, 1)] ∧
      (afterFirst 200 : Sim ℝ).ok_count = 200 ∧
      runFrames Real.sqrt [quiet] (afterFirst 200) = some (afterSecond 200) ∧
      ticks (afterSecond 200 : Sim ℝ) ∧
      overlapsFound Real.sqrt (prepared (afterSecond 200 : Sim ℝ).balls) = [(0, 1)] ∧
      runFrames Real.sqrt [quiet, quiet] (afterFirst 200) = some s2 ∧
      200 ≤ s2.ok_count ∧ s2.ok_count ≠ 0 ∧
      tick Real.sqrt (dueNow twoBalls 199) = some s3 ∧ s3.ok_count = 0 ∧
      tick Real.sqrt (dueSim oneBall 199) = some s4 ∧ s4.ok_count = 200 := by
  have ht : tick Real.sqrt (dueNow twoBalls 200 : Sim ℝ) = some (afterFirst 200) :=
    tick_twoBalls 200
  have hov : overlapsFound Real.sqrt (prepared (dueNow twoBalls 200 : Sim ℝ).balls) = [(0, 1)] :=
    overlaps_twoBalls
  have hr1 : runFrames Real.sqrt [quiet] (afterFirst 200 : Sim ℝ) = some (afterSecond 200) := by
    simp only [runFrames, List.foldlM_cons, List.foldlM_nil, frame_afterFirst, Option.some_bind,
      Option.bind_eq_bind, Option.pure_def]
  obtain ⟨s2, hs2⟩ := frame_afterSecond 200
  have hr2 : runFrames Real.sqrt [quiet, quiet] (afterFirst 200 : Sim ℝ) = some s2 := by
    simp only [runFrames, List.foldlM_cons, List.foldlM_nil, frame_afterFirst, hs2,
      Option.some_bind, Option.bind_eq_bind, Option.pure_def]
  obtain ⟨hold, keep⟩ := ok_count_hysteresis Real.sqrt (dueNow twoBalls 200) (afterFirst 200) ht
    [quiet, quiet] s2 hr2 (by simp [afterFirst])
  have ht3 : tick Real.sqrt (dueNow twoBalls 199 : Sim ℝ) = some (afterFirst 0) :=
    tick_twoBalls 199
  obtain ⟨reset, _⟩ := ok_count_hysteresis Real.sqrt (dueNow twoBalls 199) (afterFirst 0) ht3
    [] (afterFirst 0) rfl (by simp [afterFirst])
  obtain ⟨s4, ht4, _, _, _⟩ := tick_oneBall 199
  obtain ⟨incr, _⟩ := ok_count_hysteresis Real.sqrt (dueSim oneBall 199) s4 ht4 [] s4 rfl
    (by have := tick_ok_count Real.sqrt _ _ ht4; simp only [List.length_nil]; omega)
  have e4 : overlapsFound Real.sqrt (prepared (dueSim oneBall 199 : Sim ℝ).balls) = [] := by
    have hl : (prepared (dueSim oneBall 199 : Sim ℝ).balls).length = 1 := rfl
    simp [overlapsFound, hl, schedule, rowOps, overlapLog, foundBy, step, attract, prepared,
      dueSim, startSim, oneBall]
  rw [e4] at incr
  refine ⟨s2, afterFirst 0, s4, ht, hov, rfl, hr1, rfl, overlaps_afterSecond 200, hr2,
    (keep (by simp [afterFirst])).1, (keep (by simp [afterFirst])).2, ht3, ?_, ht4, ?_⟩
  · have hov3 : overlapsFound Real.sqrt (prepared (dueNow twoBalls 199 : Sim ℝ).balls) =
        [(0, 1)] := overlaps_twoBalls
    rw [reset, hov3]
    rfl
  · rw [incr]
    rfl

/-- Witness of C9 on the reals: a tick frame on a single body that leaves the
divisor at 10; the nine following frames start without a tick and the tenth starts
with one. -/
theorem tick_cadence_witness :
    ∃ s1 s2 : Sim ℝ, frame Real.sqrt quiet (dueSim oneBall 0) = some s1 ∧
      s1.speedDownFactor = 10 ∧
      runFrames Real.sqrt (List.replicate 9 quiet) s1 = some s2 ∧ ticks s2 ∧
      ∀ m, m < 9 → ∃ sm, runFrames Real.sqrt ((List.replicate 9 quiet).take m) s1 = some sm ∧
        ¬ ticks sm := by
  obtain ⟨t, ht, hf, hc, _⟩ := tick_oneBall 0
  have hb : beforeUpdatePos Real.sqrt quiet (dueSim oneBall 0) = some t := by
    have ha : afterEvents Real.sqrt quiet (dueSim oneBall 0 : Sim ℝ) = dueSim oneBall 0 := by
      simp [afterEvents, quiet, approachGoal, dueSim, startSim]
    unfold beforeUpdatePos
    rw [ha, if_pos (show (dueSim oneBall 0 : Sim ℝ).speedDownCounter = 0 from rfl)]
    exact ht
  obtain ⟨moved, hm, _⟩ := moveLoop_facts t.speedDownFactor (by rw [hf]; norm_num) t.balls
  have hfr : frame Real.sqrt quiet (dueSim oneBall 0) = some
      { t with balls := moved, speedDownCounter := t.speedDownCounter - 1 } := by
    simp only [frame, hb, updatePos, hm]
  have hdue : ticks (dueSim oneBall 0 : Sim ℝ) := rfl
  obtain ⟨⟨s2, h2, h3⟩, h4, _⟩ := tick_cadence Real.sqrt 10 (by norm_num) quiet _ _ hdue hfr
    (by simp [hf]) (List.replicate 9 quiet) (by simp)
  exact ⟨_, s2, hfr, hf, h2, h3, h4⟩

/-! ## Hit-testing -/

theorem containsPoint_cons_zero (sqrt : F → F) (p : Vec2 F) (b : Ball F) (rest : List (Ball F)) :
    containsPoint sqrt p (b :: rest) 0 ↔ length sqrt (Vec2.sub p b.position) < b.r := by
  simp [containsPoint]

theorem containsPoint_cons_succ (sqrt : F → F) (p : Vec2 F) (b : Ball F) (rest : List (Ball F))
    (j : Nat) :
    containsPoint sqrt p (b :: rest) (j + 1) ↔ containsPoint sqrt p rest j := by
  simp [containsPoint]

theorem getBallAtFrom_some (sqrt : F → F) (p : Vec2 F) (balls : List (Ball F)) (idx j : Nat) :
    getBallAtFrom sqrt p balls idx = some j ↔
      ∃ m, j = idx + m ∧ containsPoint sqrt p balls m ∧
        ∀ m1, m1 < m → ¬ containsPoint sqrt p balls m1 := by
  induction balls generalizing idx with
  | nil =>
    simp [getBallAtFrom, containsPoint]
  | cons b rest ih =>
    simp only [getBallAtFrom]
    by_cases hlt : sqrt ((Vec2.sub p b.position).x * (Vec2.sub p b.position).x +
        (Vec2.sub p b.position).y * (Vec2.sub p b.position).y) < b.r
    · rw [if_pos hlt]
      constructor
      · intro h
        cases h
        exact ⟨0, rfl, (containsPoint_cons_zero sqrt p b rest).2 hlt, fun m1 h1 => by omega⟩
      · rintro ⟨m, rfl, hm, hmin⟩
        cases m with
        | zero => rfl
        | succ m =>
          exact absurd ((containsPoint_cons_zero sqrt p b rest).2 hlt) (hmin 0 (by omega))
    · rw [if_neg hlt, ih]
      constructor
      · rintro ⟨m, rfl, hm, hmin⟩
        refine ⟨m + 1, by omega, (containsPoint_cons_succ sqrt p b rest m).2 hm, ?_⟩
        intro m1 h1
        cases m1 with
        | zero =>
          rw [containsPoint_cons_zero]
          exact hlt
        | succ m1 =>
          rw [containsPoint_cons_succ]
          exact hmin m1 (by omega)
      · rintro ⟨m, rfl, hm, hmin⟩
        cases m with
        | zero =>
          rw [containsPoint_cons_zero] at hm
          exact absurd hm hlt
        | succ m =>
          refine ⟨m, by omega, (containsPoint_cons_succ sqrt p b rest m).1 hm, ?_⟩
          intro m1 h1
          have := hmin (m1 + 1) (by omega)
          rwa [containsPoint_cons_succ] at this

theorem getBallAtFrom_none (sqrt : F → F) (p : Vec2 F) (balls : List (Ball F)) (idx : Nat) :
    getBallAtFrom sqrt p balls idx = none ↔ ∀ m, ¬ containsPoint sqrt p balls m := by
  induction balls generalizing idx with
  | nil => simp [getBallAtFrom, containsPoint]
  | cons b rest ih =>
    simp only [getBallAtFrom]
    by_cases hlt : sqrt ((Vec2.sub p b.position).x * (Vec2.sub p b.position).x +
        (Vec2.sub p b.position).y * (Vec2.sub p b.position).y) < b.r
    · rw [if_pos hlt]
      constructor
      · intro h
        cases h
      · intro h
        exact absurd ((containsPoint_cons_zero sqrt p b rest).2 hlt) (h 0)
    · rw [if_neg hlt, ih]
      constructor
      · intro h m
        cases m with
        | zero =>
          rw [containsPoint_cons_zero]
          exact hlt
        | succ m =>
          rw [containsPoint_cons_succ]
          exact h m
      · intro h m
        have := h (m + 1)
        rwa [containsPoint_cons_succ] at this

/-- C7 as stated fails on `overlapPair` over the reals at the point `(3, 0)`:
`getBallAt` returns body 0, whose centre is at distance 3 from the point, although
body 1 also contains the point and has its centre at distance 0. -/
theorem getBallAt_not_nearest :
    getBallAt Real.sqrt ⟨3, 0⟩ (overlapPair : List (Ball ℝ)) = some 0 ∧
    centreDist Real.sqrt ⟨3, 0⟩ (overlapPair : List (Ball ℝ)) 0 = some 3 ∧
    containsPoint Real.sqrt ⟨3, 0⟩ (overlapPair : List (Ball ℝ)) 1 ∧
    centreDist Real.sqrt ⟨3, 0⟩ (overlapPair : List (Ball ℝ)) 1 = some 0 := by
  have h9 : Real.sqrt 9 = 3 := real_sqrt_of_sq (by norm_num) (by norm_num)
  refine ⟨?_, ?_, ?_, ?_⟩
  · simp [getBallAt, getBallAtFrom, overlapPair, ballAt, Ball.mk3, Vec2.sub, h9]
    norm_num
  · simp [centreDist, overlapPair, ballAt, Ball.mk3, Vec2.sub, length, h9]
  · simp [containsPoint, overlapPair, ballAt, Ball.mk3, Vec2.sub, length]
  · simp [centreDist, overlapPair, ballAt, Ball.mk3, Vec2.sub, length]

/-- C7, amended.  `getBallAt` returns no body exactly when no body contains the
point; otherwise it returns the first body, in the order of the population, that
contains the point: `getBallAt` returns `j` exactly when body `j` contains the point
and no body of smaller index does. -/
theorem getBallAt_first_containing (sqrt : F → F) (p : Vec2 F) (balls : List (Ball F)) :
    (getBallAt sqrt p balls = none ↔ ∀ j, ¬ containsPoint sqrt p balls j) ∧
    ∀ j, getBallAt sqrt p balls = some j ↔
      (containsPoint sqrt p balls j ∧ ∀ j1, j1 < j → ¬ containsPoint sqrt p balls j1) := by
  refine ⟨getBallAtFrom_none sqrt p balls 0, fun j => ?_⟩
  unfold getBallAt
  rw [getBallAtFrom_some]
  constructor
  · rintro ⟨m, rfl, hm, hmin⟩
    rw [Nat.zero_add]
    exact ⟨hm, hmin⟩
  · rintro ⟨hm, hmin⟩
    exact ⟨j, by omega, hm, hmin⟩

/-! ## The Space key -/

theorem moveLoop_nil (f : F) : moveLoop f ([] : List (Ball F)) = some [] := rfl

/-- C10 as stated fails.  From the start of `main`, three frames (Space, none,
Space) lead to a state whose goal is 1 while the active divisor is 10; there the
command leaves the goal at 1 instead of setting it to 10.  And from the start state,
where the goal is 1, two commands in a row leave the goal at 10. -/
theorem spaceKey_not_a_flip :
    (∃ s : Sim ℝ, runFrames Real.sqrt [⟨true, none⟩, quiet, ⟨true, none⟩] (startSim []) = some s ∧
      s.speedDownFactorGoal = 1 ∧ s.speedDownFactor = 10 ∧
      (spaceKey s).speedDownFactorGoal = 1) ∧
    (startSim [] : Sim ℝ).speedDownFactorGoal = 1 ∧
    (spaceKey (spaceKey (startSim [] : Sim ℝ))).speedDownFactorGoal = 10 := by
  have hu : update Real.sqrt (prepared ([] : List (Ball ℝ))) 1 = some ([], true) := rfl
  have h1 : frame Real.sqrt ⟨true, none⟩ (startSim [] : Sim ℝ) =
      some ⟨1, 0, 10, 10, 0, [], none⟩ := by
    norm_num [frame, beforeUpdatePos, afterEvents, spaceKey, approachGoal, startSim, updatePos,
      moveLoop_nil]
  have h2 : frame Real.sqrt quiet (⟨1, 0, 10, 10, 0, [], none⟩ : Sim ℝ) =
      some ⟨10, 9, 10, 10, 1, [], none⟩ := by
    norm_num [frame, beforeUpdatePos, afterEvents, approachGoal, quiet, tick, hu, updatePos,
      moveLoop_nil]
  have h3 : frame Real.sqrt ⟨true, none⟩ (⟨10, 9, 10, 10, 1, [], none⟩ : Sim ℝ) =
      some ⟨10, 8, 1, 1, 1, [], none⟩ := by
    norm_num [frame, beforeUpdatePos, afterEvents, spaceKey, approachGoal, updatePos,
      moveLoop_nil]
  refine ⟨⟨⟨10, 8, 1, 1, 1, [], none⟩, ?_, rfl, rfl, ?_⟩, rfl, ?_⟩
  · simp only [runFrames, List.foldlM_cons, List.foldlM_nil, h1, h2, h3, Option.some_bind,
      Option.bind_eq_bind, Option.pure_def]
  · norm_num [spaceKey]
  · norm_num [spaceKey, startSim]

/-- C10, amended.  The command sets the goal from the active divisor, not from the
goal: to 10 when `speedDownFactor` is 1 and to 1 otherwise, whatever the goal,
waiting value and countdown are, and it changes nothing else: the divisor, the
waiting value, the countdown, the settled counter, the bodies and the focus are
kept; two commands in a row have the effect of one. -/
theorem spaceKey_sets_goal_from_divisor (s : Sim F) :
    (spaceKey s).speedDownFactorGoal = (if s.speedDownFactor = 1 then 10 else 1) ∧
    (spaceKey s).speedDownFactor = s.speedDownFactor ∧
    (spaceKey s).waitingSpeedFactor = s.waitingSpeedFactor ∧
    (spaceKey s).speedDownCounter = s.speedDownCounter ∧
    (spaceKey s).ok_count = s.ok_count ∧
    (spaceKey s).balls = s.balls ∧
    (spaceKey s).focus = s.focus ∧
    spaceKey (spaceKey s) = spaceKey s := by
  refine ⟨?_, rfl, rfl, rfl, rfl, rfl, rfl, rfl⟩
  simp only [spaceKey]
  split_ifs <;> norm_num

/-! ## Construction of the population -/

theorem spawnBall_some (cos sin : F → F) (rand : Nat → Nat) (call : Nat) (maxSize minSize : Int)
    (uninit : Bool) (hne : maxSize ≠ minSize)
    (h1 : -2 ^ 31 ≤ maxSize - minSize) (h2 : maxSize - minSize < 2 ^ 31)
    (h3 : -2 ^ 31 ≤ minSize) (h4 : minSize + |maxSize - minSize| ≤ 2 ^ 31) :
    ∃ b : Ball F, spawnBall cos sin rand call maxSize minSize uninit = some b ∧
      b.r = ((Int.tmod (rand (call + 3)) (maxSize - minSize) + minSize : Int) : F) := by
  have hr : int32 (maxSize - minSize) = some (maxSize - minSize) := by
    unfold int32
    rw [if_pos ⟨h1, h2⟩]
  have hm : cmod (rand (call + 3)) (maxSize - minSize) =
      some (Int.tmod (rand (call + 3)) (maxSize - minSize)) := by
    unfold cmod
    rw [if_neg (sub_ne_zero.2 hne)]
  have hnn : 0 ≤ Int.tmod (rand (call + 3)) (maxSize - minSize) :=
    Int.tmod_nonneg _ (Int.ofNat_nonneg _)
  have hlt : Int.tmod (rand (call + 3)) (maxSize - minSize) < |maxSize - minSize| := by
    rcases lt_or_gt_of_ne (sub_ne_zero.2 hne) with hneg | hpos
    · have := Int.tmod_lt_of_pos (rand (call + 3) : Int) (neg_pos.2 hneg)
      rw [Int.tmod_neg] at this
      rw [abs_of_neg hneg]
      exact this
    · rw [abs_of_pos hpos]
      exact Int.tmod_lt_of_pos _ hpos
  have hs : int32 (Int.tmod (rand (call + 3)) (maxSize - minSize) + minSize) =
      some (Int.tmod (rand (call + 3)) (maxSize - minSize) + minSize) := by
    unfold int32
    rw [if_pos ⟨by omega, by omega⟩]
  simp only [spawnBall, hr, hm, hs]
  exact ⟨_, rfl, rfl⟩

theorem spawnLoop_some (cos sin : F → F) (rand : Nat → Nat) (maxSize minSize : Int)
    (uninit : Bool) (hne : maxSize ≠ minSize)
    (h1 : -2 ^ 31 ≤ maxSize - minSize) (h2 : maxSize - minSize < 2 ^ 31)
    (h3 : -2 ^ 31 ≤ minSize) (h4 : minSize + |maxSize - minSize| ≤ 2 ^ 31)
    (count call : Nat) :
    ∃ bs : List (Ball F), spawnLoop cos sin rand maxSize minSize uninit count call = some bs ∧
      bs.length = count ∧
      ∀ j, j < count → (bs[j]?).map (fun b => b.r) =
        some ((Int.tmod (rand (call + 6 * j + 3)) (maxSize - minSize) + minSize : Int) : F) := by
  induction count generalizing call with
  | zero => exact ⟨[], rfl, rfl, fun j hj => absurd hj (Nat.not_lt_zero j)⟩
  | succ count ih =>
    obtain ⟨b, hb, hbr⟩ := spawnBall_some cos sin rand call maxSize minSize uninit hne h1 h2 h3 h4
    obtain ⟨bs, hbs, hlen, hrs⟩ := ih (call + 6)
    refine ⟨b :: bs, ?_, by simp [hlen], ?_⟩
    · simp only [spawnLoop, hb, hbs]
    · intro j hj
      cases j with
      | zero =>
        simp only [List.getElem?_cons_zero, Option.map_some', Nat.mul_zero, Nat.add_zero]
        rw [hbr]
      | succ j =>
        simp only [List.getElem?_cons_succ]
        rw [hrs j (by omega)]
        have : call + 6 + 6 * j + 3 = call + 6 * (j + 1) + 3 := by ring
        rw [this]

/-- C8 as stated fails: construction rejects nothing.  With `rand()` always
returning 7, over the reals: `nBalls = 0` and `nBalls = -3` give the empty
population; `nBalls = 1` with `maxSize = 3 < minSize = 5` evaluates `7 % (3 - 5)` and
gives one body of radius `1 + 5 = 6`; `nBalls = 1` with `minSize = -4` gives one body
of the negative radius `7 % (2 - (-4)) + (-4) = -3`. -/
theorem spawn_rejects_nothing :
    spawn Real.cos Real.sin (fun _ => 7) 0 12 5 false = some [] ∧
    spawn Real.cos Real.sin (fun _ => 7) (-3) 12 5 false = some [] ∧
    (spawn Real.cos Real.sin (fun _ => 7) 1 3 5 false).map (fun bs => bs.map fun b => b.r) =
      some [6] ∧
    (spawn Real.cos Real.sin (fun _ => 7) 1 2 (-4) false).map (fun bs => bs.map fun b => b.r) =
      some [-3] := by
  refine ⟨rfl, rfl, ?_, ?_⟩
  · obtain ⟨bs, h, hl, hr⟩ := spawnLoop_some Real.cos Real.sin (fun _ => 7) 3 5 false
      (by decide) (by decide) (by decide) (by decide) (by decide) 1 0
    have hs : spawn Real.cos Real.sin (fun _ => 7) 1 3 5 false = some bs := h
    rw [hs]
    match bs, hl, hr with
    | [b], _, hr =>
      have hb := hr 0 (by decide)
      have e : (Int.tmod ((7 : Nat) : Int) (3 - 5) + 5 : Int) = 6 := by decide
      simp only [List.getElem?_cons_zero, Option.map_some', Option.some.injEq] at hb
      rw [e] at hb
      simp only [Option.map_some', List.map_cons, List.map_nil, hb]
      norm_num
  · obtain ⟨bs, h, hl, hr⟩ := spawnLoop_some Real.cos Real.sin (fun _ => 7) 2 (-4) false
      (by decide) (by decide) (by decide) (by decide) (by decide) 1 0
    have hs : spawn Real.cos Real.sin (fun _ => 7) 1 2 (-4) false = some bs := h
    rw [hs]
    match bs, hl, hr with
    | [b], _, hr =>
      have hb := hr 0 (by decide)
      have e : (Int.tmod ((7 : Nat) : Int) (2 - (-4)) + (-4) : Int) = -3 := by decide
      simp only [List.getElem?_cons_zero, Option.map_some', Option.some.injEq] at hb
      rw [e] at hb
      simp only [Option.map_some', List.map_cons, List.map_nil, hb]
      norm_num

/-- C8, amended.  Construction validates nothing.  For `nBalls ≤ 0` it succeeds
with the empty population, whatever the two sizes are.  For `nBalls > 0` and
`maxSize ≠ minSize` (the sizes such that the `int` expressions of line 198 do not
overflow), also when `minSize ≤ 0` or `maxSize < minSize`, it succeeds with exactly
`nBalls` bodies, and the radius of body `j` is `rand() % (maxSize - minSize) +
minSize` for the fourth of the six `rand()` calls of its iteration, with the
truncated remainder of C++. -/
theorem spawn_unvalidated (cos sin : F → F) (rand : Nat → Nat) (nBalls maxSize minSize : Int)
    (uninit : Bool) :
    (nBalls ≤ 0 → spawn cos sin rand nBalls maxSize minSize uninit = some []) ∧
    (0 < nBalls → maxSize ≠ minSize →
      -2 ^ 31 ≤ maxSize - minSize → maxSize - minSize < 2 ^ 31 →
      -2 ^ 31 ≤ minSize → minSize + |maxSize - minSize| ≤ 2 ^ 31 →
      ∃ bs : List (Ball F), spawn cos sin rand nBalls maxSize minSize uninit = some bs ∧
        bs.length = nBalls.toNat ∧
        ∀ j, j < nBalls.toNat → (bs[j]?).map (fun b => b.r) =
          some ((Int.tmod (rand (6 * j + 3)) (maxSize - minSize) + minSize : Int) : F)) := by
  constructor
  · intro h
    have : nBalls.toNat = 0 := Int.toNat_eq_zero.2 h
    simp only [spawn, this, spawnLoop]
  · intro _ hne h1 h2 h3 h4
    obtain ⟨bs, h, hl, hr⟩ :=
      spawnLoop_some cos sin rand maxSize minSize uninit hne h1 h2 h3 h4 nBalls.toNat 0
    refine ⟨bs, h, hl, fun j hj => ?_⟩
    rw [hr j hj, Nat.zero_add]

/-- Witness of the amended C8 over the reals, with `rand()` always returning 7:
`nBalls = -3` gives no body, and `nBalls = 2` with `maxSize = 3 < minSize = 5`
gives two bodies. -/
theorem spawn_unvalidated_witness :
    spawn Real.cos Real.sin (fun _ => 7) (-3) 3 5 false = some [] ∧
    ∃ bs : List (Ball ℝ), spawn Real.cos Real.sin (fun _ => 7) 2 3 5 false = some bs ∧
      bs.length = 2 := by
  refine ⟨(spawn_unvalidated Real.cos Real.sin (fun _ => 7) (-3) 3 5 false).1 (by decide), ?_⟩
  obtain ⟨bs, h, hl, _⟩ := (spawn_unvalidated Real.cos Real.sin (fun _ => 7) 2 3 5 false).2
    (by decide) (by decide) (by decide) (by decide) (by decide) (by decide)
  exact ⟨bs, h, hl⟩

end NoCol
